import Mathlib

/-!
# SafeLane-VANET: trace replay, wire codec and beacon agent

A shallow embedding of `ns3/scratch/safelane_trace_wave.cc` and the properties of its
wire format, receive path, scheduling and logging.

Conventions of the embedding

* a `double` that is only stored, copied and logged is identified with its 64-bit object
  representation (`Double`, a natural number below `2^64`);
* `uint8_t`, `uint32_t` are naturals (below `2^8`, `2^32`), `int` and `int32_t` are
  integers in the 32-bit two's complement range;
* simulated time (`ns3::Time`) is an exact rational number of seconds;
* a packet payload is the list of its bytes.
-/

namespace SafeLane

/-! ## Scalars and their object representation -/

/-- A `double`, identified with its 64-bit object representation. -/
abbrev Double := Nat

/-- The representation of `0.0`. -/
def Double.zero : Double := 0

/-- The representation of `-1.0` (sign bit set, biased exponent 1023, empty fraction). -/
def Double.negOne : Double := 0xBFF0000000000000

/-- Byte order of the machine: `memcpy` copies the native object representation. -/
inductive ByteOrder where
  | little
  | big
deriving DecidableEq, Repr

/-- The `k` low-order base-256 digits of `v`, least significant first. -/
def leBytes : Nat → Nat → List Nat
  | 0, _ => []
  | k + 1, v => (v % 256) :: leBytes k (v / 256)

/-- The number whose base-256 digits, least significant first, are `bs`. -/
def leValue : List Nat → Nat
  | [] => 0
  | b :: bs => b + 256 * leValue bs

/-- Object representation of an unsigned scalar of `width` bytes. -/
def objBytes (o : ByteOrder) (width v : Nat) : List Nat :=
  match o with
  | .little => leBytes width v
  | .big => (leBytes width v).reverse

/-- The unsigned scalar whose object representation is `bs`. -/
def objValue (o : ByteOrder) (bs : List Nat) : Nat :=
  match o with
  | .little => leValue bs
  | .big => leValue bs.reverse

/-- Two's complement bits of a 32-bit signed integer. -/
def int32Bits (z : Int) : Nat := (z % 4294967296).toNat

/-- The 32-bit signed integer with the given two's complement bits. -/
def int32OfBits (n : Nat) : Int :=
  if n % 4294967296 < 2147483648 then (n % 4294967296 : Nat) else ((n % 4294967296 : Nat) : Int) - 4294967296

/-- The conversion `(int32_t) z`. -/
def int32Cast (z : Int) : Int := int32OfBits (int32Bits z)

/-- The conversion to `uint8_t`. -/
def uint8Cast (n : Nat) : Nat := n % 256

/-- Range of `uint32_t`. -/
def IsUInt32 (n : Nat) : Prop := n < 4294967296

/-- Range of a 64-bit object representation. -/
def IsBits64 (n : Nat) : Prop := n < 18446744073709551616

/-- Range of `int` / `int32_t`. -/
def IsInt32 (z : Int) : Prop := -2147483648 ≤ z ∧ z < 2147483648

instance (n : Nat) : Decidable (IsUInt32 n) := by unfold IsUInt32; infer_instance
instance (n : Nat) : Decidable (IsBits64 n) := by unfold IsBits64; infer_instance
instance (z : Int) : Decidable (IsInt32 z) := by unfold IsInt32; infer_instance

/-! ## Buffers and packets -/

/-- The constant `BeaconIntentApp::PAYLOAD_SIZE`. -/
def PAYLOAD_SIZE : Nat := 1 + 4 + 8 + 8 + 8 + 8 + 8 + 4 + 4

/-- The call `std::memset(buf, 0, n)` on a fresh array of `n` bytes. -/
def memset0 (n : Nat) : List Nat := List.replicate n 0

/-- The call `std::memcpy(buf + off, &src, sizeof src)`: overwrite `buf` from `off` on. -/
def memcpyTo (buf : List Nat) (off : Nat) (src : List Nat) : List Nat :=
  buf.take off ++ src ++ buf.drop (off + src.length)

/-- The source bytes of `std::memcpy(&dst, buf + off, n)`. -/
def memcpyFrom (buf : List Nat) (off n : Nat) : List Nat :=
  (buf.drop off).take n

/-- The packet `Create<Packet>(buf, size)`: a copy of the first `size` bytes. -/
def createPacket (buf : List Nat) (size : Nat) : List Nat := buf.take size

/-- The call `p->GetSize()`. -/
def getSize (p : List Nat) : Nat := p.length

/-- The call `p->CopyData(buf, size)`: the bytes copied into `buf`; their number is the
returned count. -/
def copyData (p : List Nat) (size : Nat) : List Nat := p.take size

/-! ## The kinematic state store (`gV`, `gPsi`, `gLane`) and `Apply` -/

/-- The globals `gV`, `gPsi`, `gLane` together with the node positions held by the
mobility models. A map is a lookup function; `none` is an absent key. -/
structure World where
  pos : Nat → Double × Double
  gV : Nat → Option Double
  gPsi : Nat → Option Double
  gLane : Nat → Option Int

/-- The state before any mobility sample fired: the three maps are empty. -/
def World.init (pos : Nat → Double × Double) : World :=
  { pos := pos, gV := fun _ => none, gPsi := fun _ => none, gLane := fun _ => none }

/-- The assignment `m[key] = val` of `std::unordered_map`. -/
def mapSet {β : Type} (m : Nat → Option β) (key : Nat) (val : β) : Nat → Option β :=
  fun k => if k = key then some val else m k

/-- The method `TraceMobilityPlayer::Apply`; `isConstPos` tells whether the dynamic cast
to `ConstantPositionMobilityModel` succeeds. -/
def Apply (isConstPos : Bool) (nodeId : Nat) (x y v psi : Double) (laneIdx : Int)
    (w : World) : World :=
  { pos := if isConstPos then (fun k => if k = nodeId then (x, y) else w.pos k) else w.pos
    gV := mapSet w.gV nodeId v
    gPsi := mapSet w.gPsi nodeId psi
    gLane := mapSet w.gLane nodeId laneIdx }

/-! ## The wire message, `BuildAndSend`, `HandleRead` -/

/-- The nine fields carried by a payload. -/
structure WireMessage where
  msgType : Nat
  senderId : Nat
  txTimestamp : Double
  x : Double
  y : Double
  v : Double
  psi : Double
  laneIndex : Int
  targetLaneIndex : Int
deriving DecidableEq, Repr

/-- Every field is in the range of its C++ type. -/
def WireMessage.Valid (m : WireMessage) : Prop :=
  m.msgType < 256 ∧ IsUInt32 m.senderId ∧ IsBits64 m.txTimestamp ∧ IsBits64 m.x ∧
  IsBits64 m.y ∧ IsBits64 m.v ∧ IsBits64 m.psi ∧ IsInt32 m.laneIndex ∧
  IsInt32 m.targetLaneIndex

/-- One line of the transmit log. -/
structure TxRecord where
  tTx : Double
  sender : Nat
  msgType : Int
  laneIdx : Int
  targetLaneIdx : Int
  sizeBytes : Nat
deriving DecidableEq, Repr

/-- One line of the receive log. -/
structure RxRecord where
  tTx : Double
  tRx : Double
  sender : Nat
  receiver : Nat
  msgType : Int
  sizeBytes : Nat
  dropped : Nat
  x : Double
  y : Double
  v : Double
  psi : Double
  laneIdx : Int
  targetLane : Int
deriving DecidableEq, Repr

/-- The buffer construction of `BuildAndSend` (lines 152-164) from the local variables. -/
def buildBuffer (o : ByteOrder) (msgType sender : Nat) (tTx x y v psi : Double)
    (laneIdx targetLaneIdx : Int) : List Nat :=
  let buf := memset0 PAYLOAD_SIZE
  let buf := buf.set 0 msgType
  let buf := memcpyTo buf 1 (objBytes o 4 sender)
  let buf := memcpyTo buf 5 (objBytes o 8 tTx)
  let buf := memcpyTo buf 13 (objBytes o 8 x)
  let buf := memcpyTo buf 21 (objBytes o 8 y)
  let buf := memcpyTo buf 29 (objBytes o 8 v)
  let buf := memcpyTo buf 37 (objBytes o 8 psi)
  let lane32 := int32Cast laneIdx
  let tgt32 := int32Cast targetLaneIdx
  let buf := memcpyTo buf 45 (objBytes o 4 (int32Bits lane32))
  let buf := memcpyTo buf 49 (objBytes o 4 (int32Bits tgt32))
  buf

/-- What one call of `BuildAndSend` produces: the packet handed to the socket and the
line appended to the transmit log. -/
structure Sent where
  pkt : List Nat
  txRec : TxRecord

/-- The method `BeaconIntentApp::BuildAndSend`. `sender` is `GetNode()->GetId()`, `tTx` is
`Simulator::Now().GetSeconds()`, the position is read from the mobility model. -/
def BuildAndSend (o : ByteOrder) (sender : Nat) (tTx : Double) (w : World)
    (msgTypeArg : Nat) (targetLaneIdx : Int) : Sent :=
  let msgType := uint8Cast msgTypeArg
  let p := w.pos sender
  let x := p.1
  let y := p.2
  let v := match w.gV sender with
    | some a => a
    | none => Double.zero
  let psi := match w.gPsi sender with
    | some a => a
    | none => Double.zero
  let laneIdx : Int := match w.gLane sender with
    | some a => a
    | none => -1
  let buf := buildBuffer o msgType sender tTx x y v psi laneIdx targetLaneIdx
  let pkt := createPacket buf PAYLOAD_SIZE
  let line : TxRecord :=
    { tTx := tTx, sender := sender, msgType := (msgType : Int), laneIdx := laneIdx,
      targetLaneIdx := targetLaneIdx, sizeBytes := getSize pkt }
  { pkt := pkt, txRec := line }

/-- The fields `HandleRead` holds after its size check (lines 187-207): the defaults, or
the values copied out of the buffer. -/
def readFields (o : ByteOrder) (p : List Nat) : WireMessage :=
  let buf := copyData p PAYLOAD_SIZE
  let n := buf.length
  if n ≥ PAYLOAD_SIZE then
    { msgType := buf.getD 0 0
      senderId := objValue o (memcpyFrom buf 1 4)
      txTimestamp := objValue o (memcpyFrom buf 5 8)
      x := objValue o (memcpyFrom buf 13 8)
      y := objValue o (memcpyFrom buf 21 8)
      v := objValue o (memcpyFrom buf 29 8)
      psi := objValue o (memcpyFrom buf 37 8)
      laneIndex := int32OfBits (objValue o (memcpyFrom buf 45 4))
      targetLaneIndex := int32OfBits (objValue o (memcpyFrom buf 49 4)) }
  else
    { msgType := 0, senderId := 0, txTimestamp := Double.negOne, x := 0, y := 0, v := 0,
      psi := 0, laneIndex := -1, targetLaneIndex := -1 }

/-- The method `BeaconIntentApp::HandleRead`: the receive log after the packet `p` arrived
at node `receiver` at time `tRx`. -/
def HandleRead (o : ByteOrder) (p : List Nat) (tRx : Double) (receiver : Nat)
    (rxLog : List RxRecord) : List RxRecord :=
  let f := readFields o p
  rxLog ++ [{ tTx := f.txTimestamp, tRx := tRx, sender := f.senderId, receiver := receiver,
              msgType := (f.msgType : Int), sizeBytes := getSize p, dropped := 0,
              x := f.x, y := f.y, v := f.v, psi := f.psi, laneIdx := f.laneIndex,
              targetLane := f.targetLaneIndex }]

/-- The buffer `BuildAndSend` builds for the message `m`. -/
def encode (o : ByteOrder) (m : WireMessage) : List Nat :=
  createPacket
    (buildBuffer o m.msgType m.senderId m.txTimestamp m.x m.y m.v m.psi m.laneIndex
      m.targetLaneIndex) PAYLOAD_SIZE

/-! ## Trace rows and the calls that schedule them -/

/-- Simulated time (`ns3::Time`), in seconds. -/
abbrev Time := ℚ

/-- The struct `MobilityRow`. -/
structure MobilityRow where
  t : Double
  nodeId : Nat
  x : Double
  y : Double
  v : Double
  psi : Double
  laneIdx : Int
deriving DecidableEq, Repr

/-- The struct `IntentRow`. -/
structure IntentRow where
  t : Double
  sender : Nat
  targetLane : Int
deriving DecidableEq, Repr

/-- The call of `Apply` that `Start` schedules for a row (lines 82-83). -/
def applyRow (isConstPos : Bool) (r : MobilityRow) (w : World) : World :=
  Apply isConstPos r.nodeId r.x r.y r.v r.psi r.laneIdx w

/-- The state after the calls of `Apply` for the rows `fired`, in the order given. -/
def applyRows (isConstPos : Bool) (fired : List MobilityRow) (w : World) : World :=
  fired.foldl (fun w r => applyRow isConstPos r w) w

/-- The last row for node `s` among the rows `fired`, if there is one. -/
def lastSample (s : Nat) (fired : List MobilityRow) : Option MobilityRow :=
  fired.reverse.find? (fun r => r.nodeId = s)

/-- The store entries `BuildAndSend` reads for node `s` after the rows `fired`: those of
the last row for `s`, or the defaults `(0.0, 0.0, -1)`. -/
def kinematicsOf (s : Nat) (fired : List MobilityRow) : Double × Double × Int :=
  match lastSample s fired with
  | some r => (r.v, r.psi, r.laneIdx)
  | none => (Double.zero, Double.zero, -1)

/-- A member function bound to its arguments, as handed to `Simulator::Schedule`. The
application object (`this`) is named by the index of its node. -/
inductive Action where
  | apply (nodeId : Nat) (x y v psi : Double) (laneIdx : Int)
  | sendCam (app : Nat)
  | sendIntent (app : Nat) (targetLaneIdx : Int)
  | stopApplication (app : Nat)
  | stop
deriving DecidableEq, Repr

/-- One call `Simulator::Schedule(delay, action)`. -/
structure Call where
  delay : Time
  act : Action
deriving DecidableEq, Repr

/-- The method `TraceMobilityPlayer::Start`: the calls its loop makes, in program order.
`Seconds` is the conversion `ns3::Seconds` of a `double` to a time. -/
def Start (Seconds : Double → Time) (rows : List MobilityRow) : List Call :=
  rows.foldl
    (fun calls r => calls ++ [⟨Seconds r.t, Action.apply r.nodeId r.x r.y r.v r.psi r.laneIdx⟩])
    []

/-- The method `BeaconIntentApp::ScheduleIntents` of the application on node `app`: the
calls its loop makes, in program order. -/
def ScheduleIntents (Seconds : Double → Time) (app : Nat) (intents : List IntentRow) :
    List Call :=
  intents.foldl (fun calls it => calls ++ [⟨Seconds it.t, Action.sendIntent app it.targetLane⟩]) []

/-- The vector `mine` that `main` fills for node `i` (lines 282-285). -/
def mine (i : Nat) (intents : List IntentRow) : List IntentRow :=
  intents.foldl (fun acc it => if it.sender = i then acc ++ [it] else acc) []

/-- The intent part of the loop of `main` over the nodes (lines 278-291): all calls made
through `ScheduleIntents`, in program order. -/
def mainIntentCalls (Seconds : Double → Time) (nNodes : Nat) (intents : List IntentRow) :
    List Call :=
  (List.range nNodes).foldl
    (fun calls i => calls ++ ScheduleIntents Seconds i (mine i intents)) []

/-- The calls of a trace that schedule a one-shot intent send of the application `i`. -/
def intentCallsOf (i : Nat) (calls : List Call) : List Call :=
  calls.filter (fun c =>
    match c.act with
    | Action.sendIntent app _ => decide (app = i)
    | _ => false)

/-! ## The event scheduler -/

/-- A pending event: its time, the serial number the scheduler gave it, its action. -/
structure Event where
  ts : Time
  uid : Nat
  act : Action
deriving DecidableEq, Repr

/-- Insert an event into a queue kept in dispatch order: after every event that is not
later than it, so that events of one time keep the order of their submission. -/
def insertEvent (e : Event) : List Event → List Event
  | [] => [e]
  | h :: q => if e.ts < h.ts then e :: h :: q else h :: insertEvent e q

/-- Parameters of a run that the program reads from its environment. -/
structure Env where
  order : ByteOrder
  GetSeconds : Time → Double
  isConstPos : Bool
  me : Nat
  hz : Time

/-- The simulator together with the state of the application on node `me`. -/
structure Sim where
  now : Time
  nextUid : Nat
  queue : List Event
  stopped : Bool
  world : World
  camEvent : Option Nat
  opened : Bool
  txLog : List TxRecord
  sentPkts : List (List Nat)

/-- The state before `main` scheduled anything. -/
def Sim.start (w : World) : Sim :=
  { now := 0, nextUid := 0, queue := [], stopped := false, world := w, camEvent := none,
    opened := true, txLog := [], sentPkts := [] }

/-- The call `Simulator::Schedule(delay, act)`; the new event is named by `s.nextUid`. -/
def Schedule (delay : Time) (act : Action) (s : Sim) : Sim :=
  { s with nextUid := s.nextUid + 1
           queue := insertEvent ⟨s.now + delay, s.nextUid, act⟩ s.queue }

/-- Submit the calls of a trace in order. -/
def submit (calls : List Call) (s : Sim) : Sim :=
  calls.foldl (fun s c => Schedule c.delay c.act s) s

/-- The test `ev.IsRunning()`: the event is still pending. -/
def isRunning (uid : Nat) (s : Sim) : Bool := s.queue.any (fun e => e.uid = uid)

/-- The call `Simulator::Cancel(ev)`. -/
def Cancel (uid : Nat) (s : Sim) : Sim :=
  { s with queue := s.queue.filter (fun e => e.uid ≠ uid) }

/-- The call `BuildAndSend(msgType, tgt)` of the application on node `me`, at the current
time; a closed socket sends nothing and a closed log stream records nothing. -/
def doBuildAndSend (env : Env) (msgType : Nat) (tgt : Int) (s : Sim) : Sim :=
  if s.opened then
    let r := BuildAndSend env.order env.me (env.GetSeconds s.now) s.world msgType tgt
    { s with txLog := s.txLog ++ [r.txRec], sentPkts := s.sentPkts ++ [r.pkt] }
  else s

/-- The method `BeaconIntentApp::SendCam`. -/
def SendCam (env : Env) (s : Sim) : Sim :=
  let s := doBuildAndSend env 1 (-1) s
  { Schedule (1 / env.hz) (Action.sendCam env.me) s with camEvent := some s.nextUid }

/-- The method `BeaconIntentApp::SendIntent`. -/
def SendIntent (env : Env) (targetLaneIdx : Int) (s : Sim) : Sim :=
  doBuildAndSend env 2 targetLaneIdx s

/-- The method `BeaconIntentApp::StopApplication`. -/
def StopApplication (s : Sim) : Sim :=
  let s := match s.camEvent with
    | some uid => if isRunning uid s then Cancel uid s else s
    | none => s
  { s with opened := false }

/-- Run the action of a dispatched event. Events of other applications leave the state
of this one alone. -/
def handle (env : Env) (a : Action) (s : Sim) : Sim :=
  match a with
  | Action.apply nodeId x y v psi laneIdx =>
      { s with world := Apply env.isConstPos nodeId x y v psi laneIdx s.world }
  | Action.sendCam app => if app = env.me then SendCam env s else s
  | Action.sendIntent app tgt => if app = env.me then SendIntent env tgt s else s
  | Action.stopApplication app => if app = env.me then StopApplication s else s
  | Action.stop => { s with stopped := true }

/-- One turn of the loop of `Simulator::Run`: dispatch the first pending event, unless
the run was stopped or nothing is pending. -/
def step (env : Env) (s : Sim) : Option Sim :=
  if s.stopped then none
  else
    match s.queue with
    | [] => none
    | e :: q => some (handle env e.act { s with now := e.ts, queue := q })

/-- The call `Simulator::Run()`, cut off after `fuel` events. -/
def run (env : Env) : Nat → Sim → Sim
  | 0, s => s
  | fuel + 1, s =>
    match step env s with
    | none => s
    | some s' => run env fuel s'

/-- The run has ended: `Simulator::Run()` returns. -/
def finished (env : Env) (s : Sim) : Bool := (step env s).isNone

/-- The scenario of the beacon cycle for one agent and a run of duration `D`: before the
run starts, `main` sets the stop of the application (`SetStopTime`, line 290) and of the
run (`Simulator::Stop`, line 293) at `D`; the first `SendCam` of the agent is due at `w`
(in `main`, the start time 0.05 plus the delay 0.1 of `StartApplication`). -/
def beaconScenario (env : Env) (D w : Time) (wd : World) : Sim :=
  Schedule w (Action.sendCam env.me)
    (Schedule D Action.stop (Schedule D (Action.stopApplication env.me) (Sim.start wd)))

/-! ## Playback of the mobility trace -/

/-- Dispatch order of two events: the earlier one first, and of two events of one time
the one submitted first. -/
def Event.before (a b : Event) : Prop := a.ts < b.ts ∨ (a.ts = b.ts ∧ a.uid < b.uid)

instance (a b : Event) : Decidable (a.before b) := by unfold Event.before; infer_instance

/-- The event that `Start` submits for the row at index `j` of the trace: `Start` is the
first to schedule anything, at time 0, so the serial number of the event is `j`. -/
def rowEvent (Seconds : Double → Time) (j : Nat) (r : MobilityRow) : Event :=
  { ts := 0 + Seconds r.t, uid := j, act := Action.apply r.nodeId r.x r.y r.v r.psi r.laneIdx }

/-- The simulator after `player.Start()`, before anything else is scheduled. -/
def playbackStart (Seconds : Double → Time) (rows : List MobilityRow) (w : World) : Sim :=
  submit (Start Seconds rows) (Sim.start w)

/-- The entries of the three maps for node `k`. -/
def storeAt (w : World) (k : Nat) : Option Double × Option Double × Option Int :=
  (w.gV k, w.gPsi k, w.gLane k)

/-- The action is a call of `Apply`. -/
def Action.isApply : Action → Bool
  | Action.apply _ _ _ _ _ _ => true
  | _ => false

/-- The node an `Apply` action writes, if it is one. -/
def Action.target : Action → Option Nat
  | Action.apply nodeId _ _ _ _ _ => some nodeId
  | _ => none

/-- The state after the `Apply` actions of a list of events ran in order. -/
def applyEvents (icp : Bool) (es : List Event) (w : World) : World :=
  es.foldl
    (fun w e =>
      match e.act with
      | Action.apply nodeId x y v psi laneIdx => Apply icp nodeId x y v psi laneIdx w
      | _ => w) w

/-! ## The beacon cycle -/

/-- The state of the run of `beaconScenario` when `k` beacons were sent and the next
`SendCam` is due at `t`: that event is pending, before the two stop events if `t < D`
and after them otherwise. -/
def BeaconInv (env : Env) (D t : Time) (k : Nat) (s : Sim) : Prop :=
  s.stopped = false ∧ s.opened = true ∧ s.txLog.length = k ∧ s.sentPkts.length = k ∧
  (∀ r ∈ s.txLog, r.msgType = 1 ∧ r.targetLaneIdx = -1) ∧
  ∃ u, 2 ≤ u ∧ u < s.nextUid ∧ (s.camEvent = none ∨ s.camEvent = some u) ∧
    s.queue =
      if t < D then
        [⟨t, u, Action.sendCam env.me⟩, ⟨D, 0, Action.stopApplication env.me⟩,
          ⟨D, 1, Action.stop⟩]
      else
        [⟨D, 0, Action.stopApplication env.me⟩, ⟨D, 1, Action.stop⟩,
          ⟨t, u, Action.sendCam env.me⟩]

/-! ## Log streams -/

/-- A log file on disk: the lines it holds, each ended by a newline. -/
abbrev File := List String

/-- Size of a sequence of lines in bytes. -/
def byteSize (ls : List String) : Nat := (ls.map (fun l => l.length + 1)).sum

/-- A `std::ofstream` opened on a file in append mode: the lines it was given that it
still buffers. The file receives them when the buffer outgrows `cap` bytes or when the
stream is closed; the program never flushes a stream itself. -/
structure OfStream where
  isOpen : Bool
  pending : List String
deriving DecidableEq, Repr

/-- The call `s.open(path, std::ios::out | std::ios::app)`. -/
def OfStream.openApp : OfStream := { isOpen := true, pending := [] }

/-- The call `s.tellp()`: the write position, at the end of the file in append mode. -/
def OfStream.tellp (s : OfStream) (f : File) : Nat := byteSize f + byteSize s.pending

/-- The statement `s << line << "\n"`. -/
def OfStream.put (cap : Nat) (line : String) (s : OfStream) (f : File) : OfStream × File :=
  if s.isOpen then
    if byteSize (s.pending ++ [line]) ≤ cap then ({ s with pending := s.pending ++ [line] }, f)
    else ({ s with pending := [] }, f ++ s.pending ++ [line])
  else (s, f)

/-- The call `s.close()`. -/
def OfStream.close (s : OfStream) (f : File) : OfStream × File :=
  if s.isOpen then ({ isOpen := false, pending := [] }, f ++ s.pending) else (s, f)

/-- The header line of the receive log. -/
def rxHeader : String :=
  "t_tx,t_rx,sender_id,receiver_id,msg_type,size_bytes,dropped,x,y,v,psi,lane_idx,target_lane_idx"

/-- The header line of the transmit log. -/
def txHeader : String := "t_tx,sender_id,msg_type,lane_idx,target_lane_idx,size_bytes"

/-- The two log files named by `rxLogPath` and `txLogPath`. -/
structure LogFiles where
  rx : File
  tx : File
deriving DecidableEq, Repr

/-- The members `m_rxLog`, `m_txLog` of one application. -/
structure AppLogs where
  rxLog : OfStream
  txLog : OfStream
deriving DecidableEq, Repr

/-- The two blocks of `main` that truncate the log files (lines 269-270). -/
def clearLogs : LogFiles := { rx := [], tx := [] }

/-- The log part of `StartApplication` (lines 120-127). -/
def StartApplication (cap : Nat) (fs : LogFiles) : AppLogs × LogFiles :=
  let rxLog := OfStream.openApp
  let (rxLog, rx) :=
    if rxLog.tellp fs.rx = 0 then rxLog.put cap rxHeader fs.rx else (rxLog, fs.rx)
  let txLog := OfStream.openApp
  let (txLog, tx) :=
    if txLog.tellp fs.tx = 0 then txLog.put cap txHeader fs.tx else (txLog, fs.tx)
  ({ rxLog := rxLog, txLog := txLog }, { rx := rx, tx := tx })

/-- The log part of `StopApplication` (lines 134-135). -/
def stopLogs (a : AppLogs) (fs : LogFiles) : AppLogs × LogFiles :=
  let (rxLog, rx) := if a.rxLog.isOpen then a.rxLog.close fs.rx else (a.rxLog, fs.rx)
  let (txLog, tx) := if a.txLog.isOpen then a.txLog.close fs.tx else (a.txLog, fs.tx)
  ({ rxLog := rxLog, txLog := txLog }, { rx := rx, tx := tx })

/-- Start `n` applications one after the other on the same two files. -/
def startAll (cap : Nat) : Nat → LogFiles → List AppLogs × LogFiles
  | 0, fs => ([], fs)
  | n + 1, fs =>
    let (a, fs) := StartApplication cap fs
    let (as, fs) := startAll cap n fs
    (a :: as, fs)

/-- Stop the applications one after the other. -/
def stopAll : List AppLogs → LogFiles → LogFiles
  | [], fs => fs
  | a :: as, fs => stopAll as (stopLogs a fs).2

/-- The log files after `main` cleared them and `n` applications started and stopped
without sending or receiving anything. -/
def logsAfterRun (cap n : Nat) : LogFiles :=
  let (apps, fs) := startAll cap n clearLogs
  stopAll apps fs

/-! ## Reading the mobility trace -/

/-- The ways `ReadMobilityCsv` ends without a result: `NS_FATAL_ERROR`, or an exception
of a numeric conversion that nothing catches. -/
inductive Abort where
  | fatalError
  | invalidArgument
  | outOfRange
deriving DecidableEq, Repr

/-- The conversions `std::stod`, `std::stoul`, `std::stoi` of the standard library. -/
structure StdConv where
  stod : String → Except Abort Double
  stoul : String → Except Abort Nat
  stoi : String → Except Abort Int

/-- A `std::stringstream` being read: the characters left, and whether the stream is
still good (neither `eofbit` nor `failbit` is set). -/
structure SStream where
  rest : List Char
  good : Bool
deriving DecidableEq, Repr

/-- The call `std::getline(ss, tok, delim)`. A stream that is no longer good leaves `tok`
as it was; otherwise `tok` is erased and receives the characters up to the delimiter,
which is consumed, or up to the end, which ends the good state. -/
def getlineDelim (ss : SStream) (tok : String) (delim : Char) : String × SStream :=
  if ss.good then
    let pre := ss.rest.takeWhile (fun c => c ≠ delim)
    match ss.rest.dropWhile (fun c => c ≠ delim) with
    | [] => (String.mk pre, { rest := [], good := false })
    | _ :: r => (String.mk pre, { rest := r, good := true })
  else (tok, ss)

/-- The conversion `(uint32_t) n` of an `unsigned long`. -/
def uint32Cast (n : Nat) : Nat := n % 4294967296

/-- The body of the loop of `ReadMobilityCsv` for one non-empty line (lines 38-47). -/
def parseMobilityLine (c : StdConv) (line : String) : Except Abort MobilityRow := do
  let ss : SStream := { rest := line.data, good := true }
  let tok := ""
  let (tok, ss) := getlineDelim ss tok ','
  let t ← c.stod tok
  let (tok, ss) := getlineDelim ss tok ','
  let nodeId ← c.stoul tok
  let (tok, ss) := getlineDelim ss tok ','
  let x ← c.stod tok
  let (tok, ss) := getlineDelim ss tok ','
  let y ← c.stod tok
  let (tok, ss) := getlineDelim ss tok ','
  let v ← c.stod tok
  let (tok, ss) := getlineDelim ss tok ','
  let psi ← c.stod tok
  let (tok, _) := getlineDelim ss tok ','
  let laneIdx ← c.stoi tok
  pure { t := t, nodeId := uint32Cast nodeId, x := x, y := y, v := v, psi := psi,
         laneIdx := laneIdx }

/-- The loop of `ReadMobilityCsv` over the lines after the header (lines 36-49). -/
def readMobilityLines (c : StdConv) : List String → List MobilityRow →
    Except Abort (List MobilityRow)
  | [], rows => pure rows
  | line :: rest, rows =>
    if line.data.isEmpty then readMobilityLines c rest rows
    else do
      let r ← parseMobilityLine c line
      readMobilityLines c rest (rows ++ [r])

/-- The function `ReadMobilityCsv`; `file` is `none` when the path cannot be opened, and
else the lines of the file. -/
def ReadMobilityCsv (c : StdConv) (file : Option (List String)) :
    Except Abort (List MobilityRow) :=
  match file with
  | none => Except.error Abort.fatalError
  | some lines => readMobilityLines c (lines.drop 1) []

/-- Number of comma-separated fields of a line: one more than its commas. -/
def fieldCount (line : String) : Nat := (line.data.filter (fun c => c = ',')).length + 1

/-- Value of a run of decimal digits. -/
def digitsValue (cs : List Char) : Nat := cs.foldl (fun n c => 10 * n + (c.toNat - 48)) 0

/-- Position of the leading binary digit of a positive number below `2^fuel`. -/
def log2Fuel : Nat → Nat → Nat
  | 0, _ => 0
  | fuel + 1, n => if n < 2 then 0 else log2Fuel fuel (n / 2) + 1

/-- The `double` equal to the natural number `n`, for `n` below `2^53` (where the
conversion is exact): biased exponent and fraction of `n = 2^e * 1.f`. -/
def doubleOfNat (n : Nat) : Double :=
  if n = 0 then 0
  else
    let e := log2Fuel 64 n
    (1023 + e) * 4503599627370496 + (n * 2 ^ (52 - e) - 4503599627370496)

/-- The numeric conversions on the tokens used in the examples below, those made of
decimal digits only: on such a token they are `std::stod` (number below `2^53`),
`std::stoul` (below `2^32`) and `std::stoi` (below `2^31`). Any other token is refused
here, which is not what the library does with all of them; the general statements below
are about every `StdConv`. -/
def digitsConv : StdConv :=
  { stod := fun tok =>
      if tok.data ≠ [] ∧ tok.data.all Char.isDigit ∧ digitsValue tok.data < 9007199254740992 then
        Except.ok (doubleOfNat (digitsValue tok.data))
      else Except.error Abort.invalidArgument
    stoul := fun tok =>
      if tok.data ≠ [] ∧ tok.data.all Char.isDigit ∧ digitsValue tok.data < 4294967296 then
        Except.ok (digitsValue tok.data)
      else Except.error Abort.invalidArgument
    stoi := fun tok =>
      if tok.data ≠ [] ∧ tok.data.all Char.isDigit ∧ digitsValue tok.data < 2147483648 then
        Except.ok (digitsValue tok.data : Int)
      else Except.error Abort.invalidArgument }

/-- The comma-separated fields of a line. -/
def splitOnComma : List Char → List (List Char)
  | [] => [[]]
  | c :: cs =>
    if c = ',' then [] :: splitOnComma cs
    else
      match splitOnComma cs with
      | [] => [[c]]
      | f :: fs => (c :: f) :: fs

/-- The seven conversions of `ReadMobilityCsv` applied to seven tokens, and the row they
give. -/
def parseTokens (c : StdConv) (f1 f2 f3 f4 f5 f6 f7 : String) : Except Abort MobilityRow := do
  let t ← c.stod f1
  let nodeId ← c.stoul f2
  let x ← c.stod f3
  let y ← c.stod f4
  let v ← c.stod f5
  let psi ← c.stod f6
  let laneIdx ← c.stoi f7
  pure { t := t, nodeId := uint32Cast nodeId, x := x, y := y, v := v, psi := psi,
         laneIdx := laneIdx }

/-- The header line of a mobility trace. -/
def mobilityHeader : String := "t,nodeId,x,y,v,psi,laneIndex"

/-- The row of the example scenario: node 0 at (10, 0), speed 5, heading 0, lane 1, at
time 0. -/
def sampleRow : MobilityRow :=
  { t := 0, nodeId := 0, x := 0x4024000000000000, y := 0, v := 0x4014000000000000, psi := 0,
    laneIdx := 1 }

/-- An intent schedule: node 1 at 2.0 (twice) and 4.0, node 0 at 3.0, node 7 at 5.0. -/
def sampleIntents : List IntentRow :=
  [⟨0x4000000000000000, 1, 2⟩, ⟨0x4008000000000000, 0, 1⟩, ⟨0x4000000000000000, 1, 2⟩,
    ⟨0x4014000000000000, 7, 0⟩, ⟨0x4010000000000000, 1, 0⟩]

/-- The value of a finite `double` given by its representation: sign, biased exponent
and fraction. -/
def doubleValue (d : Double) : Time :=
  let sign := d / 9223372036854775808 % 2
  let e := d / 4503599627370496 % 2048
  let f := d % 4503599627370496
  let mag : Time :=
    if e = 0 then (f : Time) * (2 : Time) ^ (-1074 : Int)
    else ((4503599627370496 + f : Nat) : Time) * (2 : Time) ^ ((e : Int) - 1075)
  if sign = 1 then -mag else mag

/-! ## Sample data -/

/-- The intent message of node 7 for lane 2, sent at time 2.0 from lane 1 at (10, 0)
with speed 5. -/
def sampleMessage : WireMessage :=
  { msgType := 2, senderId := 7, txTimestamp := 0x4000000000000000,
    x := 0x4024000000000000, y := 0, v := 0x4014000000000000, psi := 0,
    laneIndex := 1, targetLaneIndex := 2 }

/-- A run at 10 Hz on a little-endian machine, seen from node 0, with a clock read in
whole seconds. -/
def sampleEnv : Env :=
  { order := ByteOrder.little, GetSeconds := fun t => doubleOfNat (Int.toNat ⌊t⌋),
    isConstPos := true, me := 0, hz := 10 }

/-- The state in which no mobility sample fired and every node is at the origin. -/
def sampleWorld : World := World.init (fun _ => (0, 0))

/-- Node 0 at time 1.0: speed 5, lane 1. -/
def sampleEarly : MobilityRow :=
  { t := 0x3FF0000000000000, nodeId := 0, x := 0, y := 0, v := 0x4014000000000000, psi := 0,
    laneIdx := 1 }

/-- Node 0 at time 2.0: speed 7, lane 2. -/
def sampleLate : MobilityRow :=
  { t := 0x4000000000000000, nodeId := 0, x := 0, y := 0, v := 0x401C000000000000, psi := 0,
    laneIdx := 2 }

/-- Node 1 at time 1.0. -/
def sampleOther : MobilityRow :=
  { t := 0x3FF0000000000000, nodeId := 1, x := 0, y := 0, v := 0, psi := 0, laneIdx := 0 }

/-- A trace in which the later sample of node 0 is submitted first. -/
def sampleTrace : List MobilityRow := [sampleLate, sampleOther, sampleEarly]

/-! ## Codec lemmas -/

theorem leBytes_length (k v : Nat) : (leBytes k v).length = k := by
  induction k generalizing v with
  | zero => rfl
  | succ k ih => simp [leBytes, ih]

theorem leValue_leBytes (k v : Nat) : leValue (leBytes k v) = v % 256 ^ k := by
  induction k generalizing v with
  | zero => simp [leBytes, leValue, Nat.mod_one]
  | succ k ih =>
    simp only [leBytes, leValue, ih]
    rw [pow_succ, Nat.mul_comm (256 ^ k) 256, Nat.mod_mul]

theorem objBytes_length (o : ByteOrder) (k v : Nat) : (objBytes o k v).length = k := by
  cases o <;> simp [objBytes, leBytes_length]

theorem objValue_objBytes (o : ByteOrder) (k v : Nat) :
    objValue o (objBytes o k v) = v % 256 ^ k := by
  cases o <;> simp [objBytes, objValue, leValue_leBytes]

theorem int32OfBits_int32Bits (z : Int) (h : IsInt32 z) : int32OfBits (int32Bits z) = z := by
  unfold IsInt32 at h
  unfold int32OfBits int32Bits
  split <;> omega

theorem int32Cast_of_range (z : Int) (h : IsInt32 z) : int32Cast z = z :=
  int32OfBits_int32Bits z h


theorem buildBuffer_eq (o : ByteOrder) (msgType sender : Nat) (tTx x y v psi : Double)
    (laneIdx targetLaneIdx : Int) :
    buildBuffer o msgType sender tTx x y v psi laneIdx targetLaneIdx =
      [msgType] ++ objBytes o 4 sender ++ objBytes o 8 tTx ++ objBytes o 8 x ++
        objBytes o 8 y ++ objBytes o 8 v ++ objBytes o 8 psi ++
        objBytes o 4 (int32Bits (int32Cast laneIdx)) ++
        objBytes o 4 (int32Bits (int32Cast targetLaneIdx)) := by
  cases o <;>
    simp [buildBuffer, memset0, PAYLOAD_SIZE, memcpyTo, objBytes, leBytes, List.replicate]


theorem leValue_bytes8 (v : Nat) (h : v < 18446744073709551616) :
    v % 256 + 256 * (v / 256 % 256 + 256 * (v / 256 / 256 % 256 + 256 * (v / 256 / 256 / 256 % 256 +
      256 * (v / 256 / 256 / 256 / 256 % 256 + 256 * (v / 256 / 256 / 256 / 256 / 256 % 256 +
      256 * (v / 256 / 256 / 256 / 256 / 256 / 256 % 256 +
      256 * (v / 256 / 256 / 256 / 256 / 256 / 256 / 256 % 256))))))) = v := by
  omega

theorem leValue_bytes4 (v : Nat) (h : v < 4294967296) :
    v % 256 + 256 * (v / 256 % 256 + 256 * (v / 256 / 256 % 256 +
      256 * (v / 256 / 256 / 256 % 256))) = v := by
  omega

theorem int32Bits_lt (z : Int) : int32Bits z < 4294967296 := by
  unfold int32Bits
  omega

theorem encode_length (o : ByteOrder) (m : WireMessage) : (encode o m).length = 53 := by
  unfold encode
  rw [buildBuffer_eq]
  simp [createPacket, PAYLOAD_SIZE, objBytes_length]

theorem readFields_encode (o : ByteOrder) (m : WireMessage) (h : m.Valid) :
    readFields o (encode o m) = m := by
  obtain ⟨mt, sid, ts, x, y, v, psi, lane, tgt⟩ := m
  obtain ⟨h1, h2, h3, h4, h5, h6, h7, h8, h9⟩ := h
  simp only [IsUInt32, IsBits64] at h2 h3 h4 h5 h6 h7
  have e8 := int32OfBits_int32Bits _ h8
  have e9 := int32OfBits_int32Bits _ h9
  have b8 := int32Bits_lt lane
  have b9 := int32Bits_lt tgt
  unfold readFields encode
  rw [buildBuffer_eq, int32Cast_of_range _ h8, int32Cast_of_range _ h9]
  generalize int32Bits lane = bl at *
  generalize int32Bits tgt = bt at *
  cases o <;>
  simp [createPacket, copyData, PAYLOAD_SIZE, objBytes, leBytes, memcpyFrom, objValue, leValue]
  all_goals
    refine ⟨leValue_bytes4 _ h2, leValue_bytes8 _ h3, leValue_bytes8 _ h4, leValue_bytes8 _ h5,
      leValue_bytes8 _ h6, leValue_bytes8 _ h7, ?_, ?_⟩
    · rw [leValue_bytes4 _ b8]; exact e8
    · rw [leValue_bytes4 _ b9]; exact e9


/-! ## The wire codec (C1, C2) -/

/-- C1: for every message whose nine fields are in the range of their C++ types, the
buffer built by `BuildAndSend` passes the size check of `HandleRead`, and the fields
`HandleRead` extracts from it are exactly the nine fields of the message, whatever the
byte order of the machine. -/
theorem C1_decode_encode (o : ByteOrder) (m : WireMessage) (h : m.Valid) :
    PAYLOAD_SIZE ≤ (copyData (encode o m) PAYLOAD_SIZE).length ∧
      readFields o (encode o m) = m := by
  refine ⟨?_, readFields_encode o m h⟩
  have hl := encode_length o m
  simp [copyData, PAYLOAD_SIZE, hl]

theorem sampleMessage_valid : sampleMessage.Valid := by
  simp [sampleMessage, WireMessage.Valid, IsUInt32, IsBits64, IsInt32]

theorem C1_decode_encode_witness :
    sampleMessage.Valid ∧
      PAYLOAD_SIZE ≤ (copyData (encode ByteOrder.big sampleMessage) PAYLOAD_SIZE).length ∧
      readFields ByteOrder.big (encode ByteOrder.big sampleMessage) = sampleMessage :=
  ⟨sampleMessage_valid, C1_decode_encode ByteOrder.big sampleMessage sampleMessage_valid⟩

theorem buildAndSend_pkt (o : ByteOrder) (sender : Nat) (tTx : Double) (w : World)
    (msgTypeArg : Nat) (tgt : Int) :
    (BuildAndSend o sender tTx w msgTypeArg tgt).pkt =
      encode o
        { msgType := uint8Cast msgTypeArg, senderId := sender, txTimestamp := tTx,
          x := (w.pos sender).1, y := (w.pos sender).2,
          v := (w.gV sender).getD Double.zero, psi := (w.gPsi sender).getD Double.zero,
          laneIndex := (w.gLane sender).getD (-1), targetLaneIndex := tgt } := by
  simp only [BuildAndSend, encode]
  cases w.gV sender <;> cases w.gPsi sender <;> cases w.gLane sender <;>
    simp only [Option.getD]

theorem buildAndSend_pkt_length (o : ByteOrder) (sender : Nat) (tTx : Double) (w : World)
    (msgTypeArg : Nat) (tgt : Int) :
    (BuildAndSend o sender tTx w msgTypeArg tgt).pkt.length = 53 := by
  rw [buildAndSend_pkt]
  exact encode_length o _

theorem buildAndSend_txRec (o : ByteOrder) (sender : Nat) (tTx : Double) (w : World)
    (msgTypeArg : Nat) (tgt : Int) :
    (BuildAndSend o sender tTx w msgTypeArg tgt).txRec =
      { tTx := tTx, sender := sender, msgType := (uint8Cast msgTypeArg : Int),
        laneIdx := (w.gLane sender).getD (-1), targetLaneIdx := tgt, sizeBytes := 53 } := by
  have hl := buildAndSend_pkt_length o sender tTx w msgTypeArg tgt
  simp only [BuildAndSend, getSize] at hl ⊢
  rw [hl]
  cases w.gLane sender <;> simp only [Option.getD]

/-- C2, as the code has it: for every call of `BuildAndSend`, the packet has exactly
`PAYLOAD_SIZE` bytes, which is 53 (1 + 4 + 5 * 8 + 4 + 4) and not 54, and 53 is the
`size_bytes` value of the line appended to the transmit log. -/
theorem C2_payload_is_53_bytes (o : ByteOrder) (sender : Nat) (tTx : Double) (w : World)
    (msgTypeArg : Nat) (tgt : Int) :
    PAYLOAD_SIZE = 53 ∧
      (BuildAndSend o sender tTx w msgTypeArg tgt).pkt.length = 53 ∧
      (BuildAndSend o sender tTx w msgTypeArg tgt).txRec.sizeBytes = 53 := by
  refine ⟨rfl, buildAndSend_pkt_length o sender tTx w msgTypeArg tgt, ?_⟩
  rw [buildAndSend_txRec]

/-- C2 fails as stated: the beacon of node 0 in the initial state has 53 bytes, and 53
is what its transmit line records, not 54. -/
theorem C2_not_54_bytes :
    (BuildAndSend ByteOrder.little 0 0 (World.init (fun _ => (0, 0))) 1 (-1)).pkt.length ≠ 54 ∧
      (BuildAndSend ByteOrder.little 0 0 (World.init (fun _ => (0, 0))) 1 (-1)).txRec.sizeBytes
        ≠ 54 := by
  decide


/-! ## The receive path (C3, C4) -/

theorem memcpyFrom_take (p : List Nat) (k off n : Nat) (h : off + n ≤ k) :
    memcpyFrom (p.take k) off n = memcpyFrom p off n := by
  unfold memcpyFrom
  rw [List.drop_take, List.take_take]
  congr 1
  omega

theorem readFields_of_size (o : ByteOrder) (p : List Nat) (h : PAYLOAD_SIZE ≤ p.length) :
    readFields o p =
      { msgType := p.getD 0 0
        senderId := objValue o (memcpyFrom p 1 4)
        txTimestamp := objValue o (memcpyFrom p 5 8)
        x := objValue o (memcpyFrom p 13 8)
        y := objValue o (memcpyFrom p 21 8)
        v := objValue o (memcpyFrom p 29 8)
        psi := objValue o (memcpyFrom p 37 8)
        laneIndex := int32OfBits (objValue o (memcpyFrom p 45 4))
        targetLaneIndex := int32OfBits (objValue o (memcpyFrom p 49 4)) } := by
  have h53 : 53 ≤ p.length := h
  have hlen : (copyData p PAYLOAD_SIZE).length = 53 := by
    simp [copyData, PAYLOAD_SIZE, List.length_take]; omega
  have h0 : (List.take 53 p).getD 0 0 = p.getD 0 0 := by
    cases p with
    | nil => simp at h53
    | cons a t => simp
  unfold readFields
  simp only [hlen]
  simp only [copyData, PAYLOAD_SIZE, ge_iff_le, le_refl, ↓reduceIte]
  rw [memcpyFrom_take p 53 1 4 (by omega), memcpyFrom_take p 53 5 8 (by omega),
    memcpyFrom_take p 53 13 8 (by omega), memcpyFrom_take p 53 21 8 (by omega),
    memcpyFrom_take p 53 29 8 (by omega), memcpyFrom_take p 53 37 8 (by omega),
    memcpyFrom_take p 53 45 4 (by omega), memcpyFrom_take p 53 49 4 (by omega)]
  simp only [Nat.reduceAdd] at h0 ⊢
  rw [h0]

theorem readFields_of_short (o : ByteOrder) (p : List Nat) (h : p.length < PAYLOAD_SIZE) :
    readFields o p =
      { msgType := 0, senderId := 0, txTimestamp := Double.negOne, x := 0, y := 0, v := 0,
        psi := 0, laneIndex := -1, targetLaneIndex := -1 } := by
  have hlen : (copyData p PAYLOAD_SIZE).length = p.length := by
    simp [copyData, List.length_take]; omega
  unfold readFields
  simp only [hlen]
  rw [if_neg (by omega)]

/-- C3, as the code has it: for every received payload of at least `PAYLOAD_SIZE` = 53
bytes, `HandleRead` appends one receive line whose `dropped` field is 0 and whose message
fields are read from the first 53 bytes of the payload, at the offsets `BuildAndSend`
wrote them. (What `dropped` is for a shorter payload is not part of this statement.) -/
theorem C3_full_payload_not_dropped (o : ByteOrder) (p : List Nat) (tRx : Double)
    (receiver : Nat) (rxLog : List RxRecord) (h : PAYLOAD_SIZE ≤ p.length) :
    PAYLOAD_SIZE = 53 ∧
    ∃ r : RxRecord, HandleRead o p tRx receiver rxLog = rxLog ++ [r] ∧ r.dropped = 0 ∧
      r.sizeBytes = p.length ∧ r.tRx = tRx ∧ r.receiver = receiver ∧
      r.msgType = ((p.getD 0 0 : Nat) : Int) ∧
      r.sender = objValue o (memcpyFrom p 1 4) ∧
      r.tTx = objValue o (memcpyFrom p 5 8) ∧
      r.x = objValue o (memcpyFrom p 13 8) ∧
      r.y = objValue o (memcpyFrom p 21 8) ∧
      r.v = objValue o (memcpyFrom p 29 8) ∧
      r.psi = objValue o (memcpyFrom p 37 8) ∧
      r.laneIdx = int32OfBits (objValue o (memcpyFrom p 45 4)) ∧
      r.targetLane = int32OfBits (objValue o (memcpyFrom p 49 4)) := by
  refine ⟨rfl, _, rfl, ?_⟩
  simp only [readFields_of_size o p h, getSize]
  simp

theorem C3_full_payload_not_dropped_witness :
    PAYLOAD_SIZE ≤ (encode ByteOrder.little sampleMessage).length ∧
    PAYLOAD_SIZE = 53 ∧
    ∃ r : RxRecord,
      HandleRead ByteOrder.little (encode ByteOrder.little sampleMessage) 9 3 [] = [] ++ [r] ∧
      r.dropped = 0 ∧
      r.sizeBytes = (encode ByteOrder.little sampleMessage).length ∧ r.tRx = 9 ∧
      r.receiver = 3 ∧
      r.msgType = (((encode ByteOrder.little sampleMessage).getD 0 0 : Nat) : Int) ∧
      r.sender = objValue ByteOrder.little (memcpyFrom (encode ByteOrder.little sampleMessage) 1 4) ∧
      r.tTx = objValue ByteOrder.little (memcpyFrom (encode ByteOrder.little sampleMessage) 5 8) ∧
      r.x = objValue ByteOrder.little (memcpyFrom (encode ByteOrder.little sampleMessage) 13 8) ∧
      r.y = objValue ByteOrder.little (memcpyFrom (encode ByteOrder.little sampleMessage) 21 8) ∧
      r.v = objValue ByteOrder.little (memcpyFrom (encode ByteOrder.little sampleMessage) 29 8) ∧
      r.psi = objValue ByteOrder.little (memcpyFrom (encode ByteOrder.little sampleMessage) 37 8) ∧
      r.laneIdx =
        int32OfBits (objValue ByteOrder.little
          (memcpyFrom (encode ByteOrder.little sampleMessage) 45 4)) ∧
      r.targetLane =
        int32OfBits (objValue ByteOrder.little
          (memcpyFrom (encode ByteOrder.little sampleMessage) 49 4)) :=
  ⟨by decide,
    C3_full_payload_not_dropped ByteOrder.little (encode ByteOrder.little sampleMessage) 9 3 []
      (by decide)⟩

/-- C3 fails as stated: the payload of an encoded message has 53 bytes, fewer than 54,
and its receive line has `dropped` = 0 and carries the decoded fields of the message. -/
theorem C3_payload_of_53_bytes_not_dropped :
    (encode ByteOrder.little sampleMessage).length < 54 ∧
      HandleRead ByteOrder.little (encode ByteOrder.little sampleMessage) 9 3 [] =
        [{ tTx := 0x4000000000000000, tRx := 9, sender := 7, receiver := 3, msgType := 2,
           sizeBytes := 53, dropped := 0, x := 0x4024000000000000, y := 0,
           v := 0x4014000000000000, psi := 0, laneIdx := 1, targetLane := 2 }] := by
  decide

/-- C4: for every received payload with fewer bytes than the encoded message size
`PAYLOAD_SIZE`, `HandleRead` appends exactly one receive line; its message fields are
the defaults (type 0, sender 0, transmit time -1.0, position, speed and heading 0, both
lanes -1), its receive time, receiver and size are those of the event, and the line is
the same for every payload of that length. -/
theorem C4_short_payload_sentinels (o : ByteOrder) (p : List Nat) (tRx : Double)
    (receiver : Nat) (rxLog : List RxRecord) (h : p.length < PAYLOAD_SIZE) :
    ∃ r : RxRecord, HandleRead o p tRx receiver rxLog = rxLog ++ [r] ∧
      r.msgType = 0 ∧ r.sender = 0 ∧ r.tTx = Double.negOne ∧ r.x = Double.zero ∧
      r.y = Double.zero ∧ r.v = Double.zero ∧ r.psi = Double.zero ∧ r.laneIdx = -1 ∧
      r.targetLane = -1 ∧ r.tRx = tRx ∧ r.receiver = receiver ∧ r.sizeBytes = p.length ∧
      ∀ p' : List Nat, p'.length = p.length →
        HandleRead o p' tRx receiver rxLog = rxLog ++ [r] := by
  have key : ∀ q : List Nat, q.length = p.length →
      HandleRead o q tRx receiver rxLog =
        rxLog ++ [{ tTx := Double.negOne, tRx := tRx, sender := 0, receiver := receiver,
                    msgType := 0, sizeBytes := p.length, dropped := 0, x := Double.zero,
                    y := Double.zero, v := Double.zero, psi := Double.zero, laneIdx := -1,
                    targetLane := -1 }] := by
    intro q hq
    unfold HandleRead
    simp only [readFields_of_short o q (by omega), getSize, hq]
    rfl
  exact ⟨_, key p rfl, rfl, rfl, rfl, rfl, rfl, rfl, rfl, rfl, rfl, rfl, rfl, rfl, key⟩

theorem C4_short_payload_sentinels_witness :
    [1, 7, 0, 0, 0, 255, 255].length < PAYLOAD_SIZE ∧
    ∃ r : RxRecord, HandleRead ByteOrder.little [1, 7, 0, 0, 0, 255, 255] 9 3 [] = [] ++ [r] ∧
      r.msgType = 0 ∧ r.sender = 0 ∧ r.tTx = Double.negOne ∧ r.x = Double.zero ∧
      r.y = Double.zero ∧ r.v = Double.zero ∧ r.psi = Double.zero ∧ r.laneIdx = -1 ∧
      r.targetLane = -1 ∧ r.tRx = 9 ∧ r.receiver = 3 ∧
      r.sizeBytes = [1, 7, 0, 0, 0, 255, 255].length ∧
      ∀ p' : List Nat, p'.length = [1, 7, 0, 0, 0, 255, 255].length →
        HandleRead ByteOrder.little p' 9 3 [] = [] ++ [r] :=
  ⟨by decide, C4_short_payload_sentinels ByteOrder.little [1, 7, 0, 0, 0, 255, 255] 9 3 []
    (by decide)⟩


/-! ## Messages built from the state store (C10) -/

theorem applyRows_append (icp : Bool) (fired : List MobilityRow) (r : MobilityRow)
    (w : World) : applyRows icp (fired ++ [r]) w = applyRow icp r (applyRows icp fired w) := by
  simp [applyRows, List.foldl_append]

theorem lastSample_append (s : Nat) (fired : List MobilityRow) (r : MobilityRow) :
    lastSample s (fired ++ [r]) = if r.nodeId = s then some r else lastSample s fired := by
  unfold lastSample
  rw [List.reverse_append]
  simp only [List.reverse_cons, List.reverse_nil, List.nil_append, List.singleton_append,
    List.find?_cons]
  by_cases h : r.nodeId = s <;> simp [h]

/-- The store entries of a node after a sequence of `Apply` calls: those of the last
row for the node, or the entries before the sequence. -/
theorem applyRows_store (icp : Bool) (s : Nat) (fired : List MobilityRow) (w : World) :
    (applyRows icp fired w).gV s =
        (match lastSample s fired with
          | some r => some r.v
          | none => w.gV s) ∧
      (applyRows icp fired w).gPsi s =
        (match lastSample s fired with
          | some r => some r.psi
          | none => w.gPsi s) ∧
      (applyRows icp fired w).gLane s =
        (match lastSample s fired with
          | some r => some r.laneIdx
          | none => w.gLane s) := by
  induction fired using List.reverseRecOn with
  | nil => simp [applyRows, lastSample]
  | append_singleton fired r ih =>
    rw [applyRows_append, lastSample_append]
    by_cases h : r.nodeId = s
    · subst h
      simp [applyRow, Apply, mapSet]
    · have h' : ¬ s = r.nodeId := fun e => h e.symm
      simp only [applyRow, Apply, mapSet, h, h', if_false]
      exact ih

theorem lastSample_mem (s : Nat) (fired : List MobilityRow) (r : MobilityRow)
    (h : lastSample s fired = some r) : r ∈ fired ∧ r.nodeId = s := by
  unfold lastSample at h
  have h1 := List.mem_of_find?_eq_some h
  have h2 := List.find?_some h
  exact ⟨List.mem_reverse.mp h1, by simpa using h2⟩

/-- C10: let the store be the result of the `Apply` calls for the rows `fired`, starting
from empty maps. For every node `s`, time `now`, message type and target lane (all in
the range of their C++ types), the packet of `BuildAndSend(msgType, tgt)` decodes to
`msgType`, `s`, `now`, the position of `s`, the `(v, psi, laneIdx)` of the last row for
`s` (or `(0, 0, -1)` when there is none) and `tgt`, and the transmit line carries the
same sender, type, lane and target lane. `SendCam` makes this call with type 1 and
target -1, `SendIntent(tgt)` with type 2 and `tgt`. -/
theorem C10_message_from_store (o : ByteOrder) (icp : Bool) (pos0 : Nat → Double × Double)
    (fired : List MobilityRow) (s : Nat) (now : Double) (msgType : Nat) (tgt : Int)
    (hs : IsUInt32 s) (hnow : IsBits64 now) (hm : msgType < 256) (ht : IsInt32 tgt)
    (hpos : IsBits64 ((applyRows icp fired (World.init pos0)).pos s).1 ∧
      IsBits64 ((applyRows icp fired (World.init pos0)).pos s).2)
    (hrows : ∀ r ∈ fired, IsBits64 r.v ∧ IsBits64 r.psi ∧ IsInt32 r.laneIdx) :
    (readFields o (BuildAndSend o s now (applyRows icp fired (World.init pos0)) msgType tgt).pkt =
        { msgType := msgType, senderId := s, txTimestamp := now,
          x := ((applyRows icp fired (World.init pos0)).pos s).1,
          y := ((applyRows icp fired (World.init pos0)).pos s).2,
          v := (kinematicsOf s fired).1, psi := (kinematicsOf s fired).2.1,
          laneIndex := (kinematicsOf s fired).2.2, targetLaneIndex := tgt } ∧
      (BuildAndSend o s now (applyRows icp fired (World.init pos0)) msgType tgt).txRec =
        { tTx := now, sender := s, msgType := (msgType : Int),
          laneIdx := (kinematicsOf s fired).2.2, targetLaneIdx := tgt, sizeBytes := 53 }) ∧
    (∀ (env : Env) (sim : Sim), sim.opened = true →
      (SendCam env sim).sentPkts = sim.sentPkts ++
          [(BuildAndSend env.order env.me (env.GetSeconds sim.now) sim.world 1 (-1)).pkt] ∧
        (SendCam env sim).txLog = sim.txLog ++
          [(BuildAndSend env.order env.me (env.GetSeconds sim.now) sim.world 1 (-1)).txRec] ∧
        (SendIntent env tgt sim).sentPkts = sim.sentPkts ++
          [(BuildAndSend env.order env.me (env.GetSeconds sim.now) sim.world 2 tgt).pkt] ∧
        (SendIntent env tgt sim).txLog = sim.txLog ++
          [(BuildAndSend env.order env.me (env.GetSeconds sim.now) sim.world 2 tgt).txRec]) := by
  obtain ⟨hgV, hgPsi, hgLane⟩ := applyRows_store icp s fired (World.init pos0)
  have hv : ((applyRows icp fired (World.init pos0)).gV s).getD Double.zero =
      (kinematicsOf s fired).1 := by
    rw [hgV]; unfold kinematicsOf
    cases lastSample s fired <;> simp [World.init]
  have hpsi : ((applyRows icp fired (World.init pos0)).gPsi s).getD Double.zero =
      (kinematicsOf s fired).2.1 := by
    rw [hgPsi]; unfold kinematicsOf
    cases lastSample s fired <;> simp [World.init]
  have hlane : ((applyRows icp fired (World.init pos0)).gLane s).getD (-1) =
      (kinematicsOf s fired).2.2 := by
    rw [hgLane]; unfold kinematicsOf
    cases lastSample s fired <;> simp [World.init]
  have hkin : IsBits64 (kinematicsOf s fired).1 ∧ IsBits64 (kinematicsOf s fired).2.1 ∧
      IsInt32 (kinematicsOf s fired).2.2 := by
    unfold kinematicsOf
    cases hl : lastSample s fired with
    | none => simp [IsBits64, IsInt32, Double.zero]
    | some r => exact hrows r (lastSample_mem s fired r hl).1
  have hu : uint8Cast msgType = msgType := Nat.mod_eq_of_lt hm
  refine ⟨⟨?_, ?_⟩, ?_⟩
  · rw [buildAndSend_pkt, hv, hpsi, hlane, hu]
    exact readFields_encode o _ ⟨hm, hs, hnow, hpos.1, hpos.2, hkin.1, hkin.2.1, hkin.2.2, ht⟩
  · rw [buildAndSend_txRec, hlane, hu]
  · intro env sim hopen
    simp [SendCam, SendIntent, doBuildAndSend, Schedule, hopen]


theorem C10_message_from_store_witness :
    (IsUInt32 0 ∧ IsBits64 0x4000000000000000 ∧ 2 < 256 ∧ IsInt32 2) ∧
    (readFields ByteOrder.little
        (BuildAndSend ByteOrder.little 0 0x4000000000000000
          (applyRows true [sampleRow] (World.init (fun _ => (0, 0)))) 2 2).pkt =
        { msgType := 2, senderId := 0, txTimestamp := 0x4000000000000000,
          x := ((applyRows true [sampleRow] (World.init (fun _ => (0, 0)))).pos 0).1,
          y := ((applyRows true [sampleRow] (World.init (fun _ => (0, 0)))).pos 0).2,
          v := (kinematicsOf 0 [sampleRow]).1, psi := (kinematicsOf 0 [sampleRow]).2.1,
          laneIndex := (kinematicsOf 0 [sampleRow]).2.2, targetLaneIndex := 2 } ∧
      (BuildAndSend ByteOrder.little 0 0x4000000000000000
          (applyRows true [sampleRow] (World.init (fun _ => (0, 0)))) 2 2).txRec =
        { tTx := 0x4000000000000000, sender := 0, msgType := 2,
          laneIdx := (kinematicsOf 0 [sampleRow]).2.2, targetLaneIdx := 2, sizeBytes := 53 }) ∧
    kinematicsOf 0 [sampleRow] = (0x4014000000000000, 0, 1) :=
  ⟨⟨by decide, by decide, by decide, by decide⟩,
    (C10_message_from_store ByteOrder.little true (fun _ => (0, 0)) [sampleRow] 0
      0x4000000000000000 2 2 (by decide) (by decide) (by decide) (by decide) (by decide)
      (by decide)).1,
    by decide⟩

/-! ## Intents per agent (C5) -/

theorem foldl_push_filter {α : Type} (p : α → Prop) [DecidablePred p] (l init : List α) :
    l.foldl (fun acc a => if p a then acc ++ [a] else acc) init = init ++ l.filter p := by
  induction l generalizing init with
  | nil => simp
  | cons a l ih =>
    simp only [List.foldl_cons, ih, List.filter_cons]
    by_cases h : p a <;> simp [h]

theorem foldl_push_map {α β : Type} (f : α → β) (l : List α) (init : List β) :
    l.foldl (fun acc a => acc ++ [f a]) init = init ++ l.map f := by
  induction l generalizing init with
  | nil => simp
  | cons a l ih => simp [List.foldl_cons, ih]

theorem mine_eq_filter (i : Nat) (intents : List IntentRow) :
    mine i intents = intents.filter (fun it => it.sender = i) := by
  unfold mine
  rw [foldl_push_filter (fun it : IntentRow => it.sender = i)]
  simp

theorem scheduleIntents_eq_map (Seconds : Double → Time) (app : Nat)
    (intents : List IntentRow) :
    ScheduleIntents Seconds app intents =
      intents.map (fun it => ⟨Seconds it.t, Action.sendIntent app it.targetLane⟩) := by
  unfold ScheduleIntents
  rw [foldl_push_map]
  simp

theorem start_eq_map (Seconds : Double → Time) (rows : List MobilityRow) :
    Start Seconds rows =
      rows.map (fun r => ⟨Seconds r.t, Action.apply r.nodeId r.x r.y r.v r.psi r.laneIdx⟩) := by
  unfold Start
  rw [foldl_push_map]
  simp

theorem mainIntentCalls_succ (Seconds : Double → Time) (n : Nat) (intents : List IntentRow) :
    mainIntentCalls Seconds (n + 1) intents =
      mainIntentCalls Seconds n intents ++ ScheduleIntents Seconds n (mine n intents) := by
  unfold mainIntentCalls
  rw [List.range_succ, List.foldl_append]
  rfl

theorem intentCallsOf_scheduleIntents (Seconds : Double → Time) (i j : Nat)
    (l : List IntentRow) :
    intentCallsOf i (ScheduleIntents Seconds j l) =
      if j = i then ScheduleIntents Seconds j l else [] := by
  rw [scheduleIntents_eq_map]
  unfold intentCallsOf
  by_cases h : j = i
  · simp [h, List.filter_map, Function.comp_def]
  · simp [h, List.filter_map, Function.comp_def]

theorem intentCallsOf_main (Seconds : Double → Time) (i n : Nat) (intents : List IntentRow) :
    intentCallsOf i (mainIntentCalls Seconds n intents) =
      if i < n then ScheduleIntents Seconds i (mine i intents) else [] := by
  induction n with
  | zero => simp [mainIntentCalls, intentCallsOf]
  | succ n ih =>
    rw [mainIntentCalls_succ]
    have happ : ∀ a b : List Call, intentCallsOf i (a ++ b) =
        intentCallsOf i a ++ intentCallsOf i b := by
      intro a b; simp [intentCallsOf]
    rw [happ, ih, intentCallsOf_scheduleIntents]
    by_cases h1 : i < n
    · have h2 : ¬ n = i := by omega
      have h3 : i < n + 1 := by omega
      simp [h1, h2, h3]
    · by_cases h2 : n = i
      · subst h2; simp
      · have h3 : ¬ i < n + 1 := by omega
        simp [h1, h2, h3]

/-- C5: for every list of intent rows and every agent index `i < nNodes`, the one-shot
intent sends that the loop of `main` schedules for agent `i` through `ScheduleIntents`
are, in program order, one call per row whose sender is `i` (in input order, duplicates
kept), each at the time of its row and carrying the target lane of its row; in
particular no row of another sender is scheduled for agent `i`. -/
theorem C5_intents_per_agent (Seconds : Double → Time) (nNodes i : Nat)
    (intents : List IntentRow) (h : i < nNodes) :
    intentCallsOf i (mainIntentCalls Seconds nNodes intents) =
      (intents.filter (fun it => it.sender = i)).map
        (fun it => ⟨Seconds it.t, Action.sendIntent i it.targetLane⟩) := by
  rw [intentCallsOf_main, if_pos h, scheduleIntents_eq_map, mine_eq_filter]

theorem C5_intents_per_agent_witness :
    1 < 3 ∧
    intentCallsOf 1 (mainIntentCalls doubleValue 3 sampleIntents) =
      (sampleIntents.filter (fun it => it.sender = 1)).map
        (fun it => ⟨doubleValue it.t, Action.sendIntent 1 it.targetLane⟩) ∧
    sampleIntents.filter (fun it => it.sender = 1) =
      [⟨0x4000000000000000, 1, 2⟩, ⟨0x4000000000000000, 1, 2⟩, ⟨0x4010000000000000, 1, 0⟩] :=
  ⟨by decide, C5_intents_per_agent doubleValue 3 1 sampleIntents (by decide), by decide⟩

/-! ## Log headers (C8) -/

/-- C8 at two agents: after `main` cleared the logs, two applications start on them and
stop. The first writes the header into its stream, where it stays buffered, so the
second still finds the file empty and writes the header too: both files end with the
header line twice. (An application started on a file that already holds the header
writes none.) -/
theorem C8_two_agents_write_two_headers :
    (StartApplication 8191 clearLogs).2 = clearLogs ∧
      (StartApplication 8191 clearLogs).1.txLog.pending = [txHeader] ∧
      (StartApplication 8191 (StartApplication 8191 clearLogs).2).1.txLog.pending = [txHeader] ∧
      (logsAfterRun 8191 2).tx = [txHeader, txHeader] ∧
      (logsAfterRun 8191 2).rx = [rxHeader, rxHeader] ∧
      (StartApplication 8191 { rx := [rxHeader], tx := [txHeader] }).1.txLog.pending = [] := by
  decide

/-! ## Malformed mobility rows (C9) -/

theorem splitOnComma_eq (cs : List Char) :
    splitOnComma cs =
      cs.takeWhile (fun c => c ≠ ',') ::
        (match cs.dropWhile (fun c => c ≠ ',') with
          | [] => []
          | _ :: r => splitOnComma r) := by
  induction cs with
  | nil => rfl
  | cons c cs ih =>
    by_cases h : c = ','
    · subst h
      simp [splitOnComma]
    · rw [splitOnComma, if_neg h, ih]
      simp [h]

theorem getlineDelim_more (cs : List Char) (tok : String) (f g : List Char)
    (fs : List (List Char)) (h : splitOnComma cs = f :: g :: fs) :
    ∃ r, getlineDelim { rest := cs, good := true } tok ',' =
        (String.mk f, { rest := r, good := true }) ∧ splitOnComma r = g :: fs := by
  rw [splitOnComma_eq] at h
  injection h with h1 h2
  subst h1
  unfold getlineDelim
  simp only [↓reduceIte]
  cases hd : cs.dropWhile (fun c => c ≠ ',') with
  | nil => rw [hd] at h2; simp at h2
  | cons a r =>
    rw [hd] at h2
    exact ⟨r, rfl, h2⟩

theorem getlineDelim_last (cs : List Char) (tok : String) (f : List Char)
    (fs : List (List Char)) (h : splitOnComma cs = f :: fs) :
    (getlineDelim { rest := cs, good := true } tok ',').1 = String.mk f := by
  rw [splitOnComma_eq] at h
  injection h with h1 h2
  subst h1
  unfold getlineDelim
  simp only [↓reduceIte]
  cases hd : cs.dropWhile (fun c => c ≠ ',') <;> rfl

/-- On a line with at least seven fields, the tokens the reader converts are the first
seven fields. -/
theorem parseMobilityLine_of_fields (c : StdConv) (line : String)
    (f1 f2 f3 f4 f5 f6 f7 : List Char) (more : List (List Char))
    (h : splitOnComma line.data = f1 :: f2 :: f3 :: f4 :: f5 :: f6 :: f7 :: more) :
    parseMobilityLine c line =
      parseTokens c (String.mk f1) (String.mk f2) (String.mk f3) (String.mk f4)
        (String.mk f5) (String.mk f6) (String.mk f7) := by
  obtain ⟨r1, e1, h1⟩ := getlineDelim_more line.data "" f1 f2 _ h
  obtain ⟨r2, e2, h2⟩ := getlineDelim_more r1 (String.mk f1) f2 f3 _ h1
  obtain ⟨r3, e3, h3⟩ := getlineDelim_more r2 (String.mk f2) f3 f4 _ h2
  obtain ⟨r4, e4, h4⟩ := getlineDelim_more r3 (String.mk f3) f4 f5 _ h3
  obtain ⟨r5, e5, h5⟩ := getlineDelim_more r4 (String.mk f4) f5 f6 _ h4
  obtain ⟨r6, e6, h6⟩ := getlineDelim_more r5 (String.mk f5) f6 f7 _ h5
  have e7 := getlineDelim_last r6 (String.mk f6) f7 more h6
  unfold parseMobilityLine parseTokens
  simp only [e1, e2, e3, e4, e5, e6, e7]


theorem parseTokens_error (c : StdConv) (f1 f2 f3 f4 f5 f6 f7 : String)
    (hbad : (∃ e, c.stod f1 = Except.error e) ∨ (∃ e, c.stoul f2 = Except.error e) ∨
      (∃ e, c.stod f3 = Except.error e) ∨ (∃ e, c.stod f4 = Except.error e) ∨
      (∃ e, c.stod f5 = Except.error e) ∨ (∃ e, c.stod f6 = Except.error e) ∨
      (∃ e, c.stoi f7 = Except.error e)) :
    ∃ e, parseTokens c f1 f2 f3 f4 f5 f6 f7 = Except.error e := by
  unfold parseTokens
  cases h1 : c.stod f1 with
  | error e => exact ⟨e, rfl⟩
  | ok a1 =>
  cases h2 : c.stoul f2 with
  | error e => exact ⟨e, rfl⟩
  | ok a2 =>
  cases h3 : c.stod f3 with
  | error e => exact ⟨e, rfl⟩
  | ok a3 =>
  cases h4 : c.stod f4 with
  | error e => exact ⟨e, rfl⟩
  | ok a4 =>
  cases h5 : c.stod f5 with
  | error e => exact ⟨e, rfl⟩
  | ok a5 =>
  cases h6 : c.stod f6 with
  | error e => exact ⟨e, rfl⟩
  | ok a6 =>
  cases h7 : c.stoi f7 with
  | error e => exact ⟨e, rfl⟩
  | ok a7 =>
    rw [h1, h2, h3, h4, h5, h6, h7] at hbad
    simp at hbad

theorem readMobilityLines_error (c : StdConv) (lines : List String) (line : String)
    (rows : List MobilityRow) (hmem : line ∈ lines) (hne : line.data ≠ [])
    (hbad : ∃ e, parseMobilityLine c line = Except.error e) :
    ∃ e, readMobilityLines c lines rows = Except.error e := by
  induction lines generalizing rows with
  | nil => simp at hmem
  | cons l rest ih =>
    unfold readMobilityLines
    by_cases hl : l.data.isEmpty = true
    · rw [if_pos hl]
      rcases List.mem_cons.mp hmem with h | h
      · subst h
        simp [List.isEmpty_iff] at hl
        exact absurd hl hne
      · exact ih rows h
    · rw [if_neg hl]
      cases hp : parseMobilityLine c l with
      | error e => exact ⟨e, rfl⟩
      | ok r =>
        rcases List.mem_cons.mp hmem with h | h
        · subst h
          rw [hp] at hbad
          simp at hbad
        · exact ih (rows ++ [r]) h

/-- C9, as the code has it: for every data row with at least seven comma-separated
fields in which one of the first seven fields is refused by the conversion of its column
(`std::stod` for `t`, `x`, `y`, `v`, `psi`, `std::stoul` for `nodeId`, `std::stoi` for
`laneIndex`), `ReadMobilityCsv` ends with an error and returns no row list, whatever the
other rows are. -/
theorem C9_refused_field_aborts (c : StdConv) (lines : List String) (line : String)
    (f1 f2 f3 f4 f5 f6 f7 : List Char) (more : List (List Char))
    (hmem : line ∈ lines.drop 1)
    (hsplit : splitOnComma line.data = f1 :: f2 :: f3 :: f4 :: f5 :: f6 :: f7 :: more)
    (hbad : (∃ e, c.stod (String.mk f1) = Except.error e) ∨
      (∃ e, c.stoul (String.mk f2) = Except.error e) ∨
      (∃ e, c.stod (String.mk f3) = Except.error e) ∨
      (∃ e, c.stod (String.mk f4) = Except.error e) ∨
      (∃ e, c.stod (String.mk f5) = Except.error e) ∨
      (∃ e, c.stod (String.mk f6) = Except.error e) ∨
      (∃ e, c.stoi (String.mk f7) = Except.error e)) :
    ∃ e, ReadMobilityCsv c (some lines) = Except.error e := by
  have hne : line.data ≠ [] := by
    intro h0
    rw [h0] at hsplit
    simp [splitOnComma] at hsplit
  have hp : ∃ e, parseMobilityLine c line = Except.error e := by
    rw [parseMobilityLine_of_fields c line f1 f2 f3 f4 f5 f6 f7 more hsplit]
    exact parseTokens_error c _ _ _ _ _ _ _ hbad
  exact readMobilityLines_error c (lines.drop 1) line [] hmem hne hp

theorem C9_refused_field_aborts_witness :
    "0,x,10,0,5,0,1" ∈ [mobilityHeader, "0,0,10,0,5,0,1", "0,x,10,0,5,0,1"].drop 1 ∧
    splitOnComma "0,x,10,0,5,0,1".data =
      ['0'] :: ['x'] :: ['1', '0'] :: ['0'] :: ['5'] :: ['0'] :: ['1'] :: [] ∧
    (∃ e, digitsConv.stoul (String.mk ['x']) = Except.error e) ∧
    ∃ e, ReadMobilityCsv digitsConv
      (some [mobilityHeader, "0,0,10,0,5,0,1", "0,x,10,0,5,0,1"]) = Except.error e :=
  ⟨by decide, by decide, ⟨Abort.invalidArgument, rfl⟩,
    C9_refused_field_aborts digitsConv [mobilityHeader, "0,0,10,0,5,0,1", "0,x,10,0,5,0,1"]
      "0,x,10,0,5,0,1" ['0'] ['x'] ['1', '0'] ['0'] ['5'] ['0'] ['1'] [] (by decide)
      (by decide) (Or.inr (Or.inl ⟨Abort.invalidArgument, rfl⟩))⟩

/-- C9 fails as stated: a data row with eight fields is not refused; the reader builds a
row from its first seven fields and returns it. -/
theorem C9_row_of_eight_fields_accepted :
    fieldCount "0,0,10,0,5,0,1,99" = 8 ∧
      ReadMobilityCsv digitsConv (some [mobilityHeader, "0,0,10,0,5,0,1,99"]) =
        Except.ok [sampleRow] := by
  constructor
  · decide
  · rfl


/-! ## The scheduler keeps its queue in dispatch order -/

theorem mem_insertEvent (e x : Event) (q : List Event) :
    x ∈ insertEvent e q ↔ x = e ∨ x ∈ q := by
  induction q with
  | nil => simp [insertEvent]
  | cons h t ih =>
    unfold insertEvent
    by_cases hlt : e.ts < h.ts
    · simp [hlt]
    · simp only [hlt, if_false, List.mem_cons, ih]
      tauto

theorem length_insertEvent (e : Event) (q : List Event) :
    (insertEvent e q).length = q.length + 1 := by
  induction q with
  | nil => simp [insertEvent]
  | cons h t ih =>
    unfold insertEvent
    by_cases hlt : e.ts < h.ts <;> simp [hlt, ih]

theorem Event.before_trans {a b c : Event} (hab : a.before b) (hbc : b.before c) :
    a.before c := by
  unfold Event.before at *
  rcases hab with h1 | ⟨h1, h1'⟩ <;> rcases hbc with h2 | ⟨h2, h2'⟩
  · exact Or.inl (lt_trans h1 h2)
  · exact Or.inl (h2 ▸ h1)
  · exact Or.inl (h1 ▸ h2)
  · exact Or.inr ⟨h1.trans h2, lt_trans h1' h2'⟩

theorem Event.before_irrefl (a : Event) : ¬ a.before a := by
  unfold Event.before
  rintro (h | ⟨_, h⟩)
  · exact lt_irrefl _ h
  · exact lt_irrefl _ h

theorem Event.before_asymm {a b : Event} (hab : a.before b) : ¬ b.before a :=
  fun hba => Event.before_irrefl a (Event.before_trans hab hba)

theorem pairwise_insertEvent (e : Event) (q : List Event)
    (hq : q.Pairwise Event.before) (huid : ∀ x ∈ q, x.uid < e.uid) :
    (insertEvent e q).Pairwise Event.before := by
  induction q with
  | nil => simp [insertEvent]
  | cons h t ih =>
    have hq' := List.pairwise_cons.mp hq
    unfold insertEvent
    by_cases hlt : e.ts < h.ts
    · rw [if_pos hlt]
      refine List.pairwise_cons.mpr ⟨?_, hq⟩
      intro x hx
      rcases List.mem_cons.mp hx with rfl | hx
      · exact Or.inl hlt
      · exact Event.before_trans (Or.inl hlt) (hq'.1 x hx)
    · rw [if_neg hlt]
      refine List.pairwise_cons.mpr ⟨?_, ih hq'.2 (fun x hx => huid x (List.mem_cons_of_mem _ hx))⟩
      intro x hx
      rcases (mem_insertEvent e x t).mp hx with rfl | hx
      · rcases lt_or_eq_of_le (not_lt.mp hlt) with h1 | h1
        · exact Or.inl h1
        · exact Or.inr ⟨h1, huid h (List.mem_cons_self _ _)⟩
      · exact hq'.1 x hx

theorem submit_append (calls : List Call) (c : Call) (s : Sim) :
    submit (calls ++ [c]) s = Schedule c.delay c.act (submit calls s) := by
  simp [submit, List.foldl_append]

/-- After `Start`, the queue holds exactly the events of the rows, in dispatch order. -/
theorem playbackStart_queue (Seconds : Double → Time) (rows : List MobilityRow) (w : World) :
    (playbackStart Seconds rows w).nextUid = rows.length ∧
      (playbackStart Seconds rows w).now = 0 ∧
      (playbackStart Seconds rows w).stopped = false ∧
      (playbackStart Seconds rows w).world = w ∧
      (playbackStart Seconds rows w).queue.length = rows.length ∧
      (playbackStart Seconds rows w).queue.Pairwise Event.before ∧
      ∀ e, e ∈ (playbackStart Seconds rows w).queue ↔
        ∃ j r, rows[j]? = some r ∧ e = rowEvent Seconds j r := by
  unfold playbackStart
  rw [start_eq_map]
  induction rows using List.reverseRecOn with
  | nil => simp [submit, Sim.start]
  | append_singleton rows r ih =>
    obtain ⟨h1, h2, h3, h4, h5, h6, h7⟩ := ih
    rw [List.map_append, List.map_singleton, submit_append]
    simp only [Schedule]
    refine ⟨by simp [h1], h2, h3, h4, by simp [length_insertEvent, h5], ?_, ?_⟩
    · apply pairwise_insertEvent _ _ h6
      intro x hx
      obtain ⟨j, r', hj, rfl⟩ := (h7 x).mp hx
      have : j < rows.length := by
        by_contra hcon
        rw [List.getElem?_eq_none (by omega)] at hj
        simp at hj
      simpa [rowEvent, h1] using this
    · intro e
      rw [mem_insertEvent, h7]
      constructor
      · rintro (rfl | ⟨j, r', hj, rfl⟩)
        · refine ⟨rows.length, r, by simp, ?_⟩
          simp [rowEvent, h1, h2]
        · refine ⟨j, r', ?_, rfl⟩
          have : j < rows.length := by
            by_contra hcon
            rw [List.getElem?_eq_none (by omega)] at hj
            simp at hj
          rw [List.getElem?_append_left this]
          exact hj
      · rintro ⟨j, r', hj, rfl⟩
        by_cases hjl : j < rows.length
        · right
          rw [List.getElem?_append_left hjl] at hj
          exact ⟨j, r', hj, rfl⟩
        · left
          have hj' : j = rows.length := by
            by_contra hne
            rw [List.getElem?_eq_none (by simp; omega)] at hj
            simp at hj
          subst hj'
          simp at hj
          subst hj
          simp [rowEvent, h1, h2]


/-! ## Playback ordering (C7) -/

theorem applyEvents_append (icp : Bool) (es fs : List Event) (w : World) :
    applyEvents icp (es ++ fs) w = applyEvents icp fs (applyEvents icp es w) := by
  simp [applyEvents, List.foldl_append]

theorem applyEvents_store_other (icp : Bool) (k : Nat) (es : List Event) (w : World)
    (h : ∀ e ∈ es, e.act.target ≠ some k) :
    storeAt (applyEvents icp es w) k = storeAt w k := by
  induction es generalizing w with
  | nil => rfl
  | cons e es ih =>
    have he := h e (List.mem_cons_self _ _)
    have ht : ∀ x ∈ es, x.act.target ≠ some k := fun x hx => h x (List.mem_cons_of_mem _ hx)
    show storeAt (applyEvents icp es _) k = _
    rw [ih _ ht]
    obtain ⟨ts, uid, act⟩ := e
    cases act with
    | apply nodeId x y v psi laneIdx =>
      have hne : ¬ k = nodeId := fun e' => he (by simp [Action.target, e'])
      simp [storeAt, Apply, mapSet, hne]
    | sendCam _ => rfl
    | sendIntent _ _ => rfl
    | stopApplication _ => rfl
    | stop => rfl

theorem applyEvents_rowEvent (icp : Bool) (Seconds : Double → Time) (j : Nat)
    (r : MobilityRow) (w : World) :
    storeAt (applyEvents icp [rowEvent Seconds j r] w) r.nodeId =
      (some r.v, some r.psi, some r.laneIdx) := by
  simp [applyEvents, rowEvent, storeAt, Apply, mapSet]

theorem run_applyOnly (env : Env) (j : Nat) (s : Sim) (hs : s.stopped = false)
    (hq : ∀ e ∈ s.queue, e.act.isApply = true) :
    (run env j s).world = applyEvents env.isConstPos (s.queue.take j) s.world := by
  induction j generalizing s with
  | zero => simp [run, applyEvents]
  | succ j ih =>
    obtain ⟨now, nextUid, queue, stopped, world, camEvent, opened, txLog, sentPkts⟩ := s
    simp only at hs hq
    subst hs
    cases queue with
    | nil => simp [run, step, applyEvents]
    | cons e q =>
      have he := hq e (List.mem_cons_self _ _)
      have hq' : ∀ x ∈ q, x.act.isApply = true := fun x hx => hq x (List.mem_cons_of_mem _ hx)
      cases hact : e.act with
      | apply nodeId x y v psi laneIdx =>
        simp only [run, step, handle, hact, Bool.false_eq_true, if_false]
        rw [ih _ rfl hq']
        simp [applyEvents, hact]
      | sendCam _ => rw [hact] at he; simp [Action.isApply] at he
      | sendIntent _ _ => rw [hact] at he; simp [Action.isApply] at he
      | stopApplication _ => rw [hact] at he; simp [Action.isApply] at he
      | stop => rw [hact] at he; simp [Action.isApply] at he

/-- C7: let the rows of a trace be scheduled by `Start` in any order, and dispatched by
time, events of one time in the order of their submission. Let node `k` have a row `r1`
(at index `i1`) and a row `r2` (at index `i2`) with the time of `r1` before that of `r2`,
and no other row of `k` that fires between them. Then `r1` fires at some turn `p1 + 1`
of the run and `r2` at a later turn `p2 + 1`; at every observation after `r1` fired and
before `r2` fires (after `j` turns, `p1 < j ≤ p2`) the entries `gV[k]`, `gPsi[k]`,
`gLane[k]` are the `(v, psi, laneIdx)` of `r1`, and once `r2` has fired they are those
of `r2`. -/
theorem C7_playback_order (env : Env) (Seconds : Double → Time) (rows : List MobilityRow)
    (w : World) (k i1 i2 : Nat) (r1 r2 : MobilityRow)
    (h1 : rows[i1]? = some r1) (h2 : rows[i2]? = some r2)
    (hk1 : r1.nodeId = k) (hk2 : r2.nodeId = k)
    (hlt : Seconds r1.t < Seconds r2.t)
    (hbetween : ∀ j r, rows[j]? = some r → r.nodeId = k →
      ¬ ((rowEvent Seconds i1 r1).before (rowEvent Seconds j r) ∧
        (rowEvent Seconds j r).before (rowEvent Seconds i2 r2))) :
    ∃ p1 p2, p1 < p2 ∧ p2 < rows.length ∧
      (playbackStart Seconds rows w).queue[p1]? = some (rowEvent Seconds i1 r1) ∧
      (playbackStart Seconds rows w).queue[p2]? = some (rowEvent Seconds i2 r2) ∧
      (∀ j, p1 < j → j ≤ p2 →
        storeAt (run env j (playbackStart Seconds rows w)).world k =
          (some r1.v, some r1.psi, some r1.laneIdx)) ∧
      storeAt (run env (p2 + 1) (playbackStart Seconds rows w)).world k =
        (some r2.v, some r2.psi, some r2.laneIdx) := by
  obtain ⟨-, -, hstop, hworld, hlen, hpw, hmem⟩ := playbackStart_queue Seconds rows w
  have hbefore : (rowEvent Seconds i1 r1).before (rowEvent Seconds i2 r2) := by
    left; simpa [rowEvent] using hlt
  have hm1 : rowEvent Seconds i1 r1 ∈ (playbackStart Seconds rows w).queue :=
    (hmem _).mpr ⟨i1, r1, h1, rfl⟩
  have hm2 : rowEvent Seconds i2 r2 ∈ (playbackStart Seconds rows w).queue :=
    (hmem _).mpr ⟨i2, r2, h2, rfl⟩
  have hall : ∀ e ∈ (playbackStart Seconds rows w).queue, e.act.isApply = true := by
    intro e he
    obtain ⟨j, r, -, rfl⟩ := (hmem e).mp he
    rfl
  obtain ⟨pre, rest, hq⟩ := List.append_of_mem hm1
  rw [hq] at hm2 hpw
  obtain ⟨hpw1, hpw2, hpw3⟩ := List.pairwise_append.mp hpw
  obtain ⟨hpw4, hpw5⟩ := List.pairwise_cons.mp hpw2
  have hm2' : rowEvent Seconds i2 r2 ∈ rest := by
    rcases List.mem_append.mp hm2 with h | h
    · exact absurd (hpw3 _ h _ (List.mem_cons_self _ _)) (Event.before_asymm hbefore)
    · rcases List.mem_cons.mp h with h | h
      · rw [h] at hbefore
        exact absurd hbefore (Event.before_irrefl _)
      · exact h
  obtain ⟨mid, post, hrest⟩ := List.append_of_mem hm2'
  rw [hrest] at hpw5 hpw4
  obtain ⟨-, hpw6, hpw7⟩ := List.pairwise_append.mp hpw5
  have hmid : ∀ e ∈ mid, e.act.target ≠ some k := by
    intro e he
    have he1 : (rowEvent Seconds i1 r1).before e := hpw4 e (List.mem_append_left _ he)
    have he2 : e.before (rowEvent Seconds i2 r2) := hpw7 e he _ (List.mem_cons_self _ _)
    have heq : e ∈ (playbackStart Seconds rows w).queue := by
      rw [hq, hrest]
      simp [he]
    obtain ⟨j, r, hj, rfl⟩ := (hmem e).mp heq
    intro htgt
    have hrk : r.nodeId = k := by simpa [rowEvent, Action.target] using htgt
    exact hbetween j r hj hrk ⟨he1, he2⟩
  have hqueue : (playbackStart Seconds rows w).queue =
      pre ++ rowEvent Seconds i1 r1 :: (mid ++ rowEvent Seconds i2 r2 :: post) := by
    rw [hq, hrest]
  have hrun : ∀ j, storeAt (run env j (playbackStart Seconds rows w)).world k =
      storeAt (applyEvents env.isConstPos ((playbackStart Seconds rows w).queue.take j) w) k := by
    intro j
    rw [run_applyOnly env j _ hstop hall, hworld]
  refine ⟨pre.length, pre.length + 1 + mid.length, by omega, ?_, ?_, ?_, ?_, ?_⟩
  · rw [← hlen, hqueue]
    simp
    omega
  · rw [hqueue, List.getElem?_append_right (le_refl _)]
    simp
  · have e1 : pre ++ rowEvent Seconds i1 r1 :: (mid ++ rowEvent Seconds i2 r2 :: post) =
        (pre ++ rowEvent Seconds i1 r1 :: mid) ++ rowEvent Seconds i2 r2 :: post := by
      simp
    have e2 : (pre ++ rowEvent Seconds i1 r1 :: mid).length = pre.length + 1 + mid.length := by
      simp; omega
    rw [hqueue, e1, ← e2, List.getElem?_append_right (le_refl _)]
    simp
  · intro j hj1 hj2
    rw [hrun j, hqueue]
    obtain ⟨m, rfl⟩ : ∃ m, j = pre.length + 1 + m := ⟨j - pre.length - 1, by omega⟩
    have hm : m ≤ mid.length := by omega
    have htake : List.take (pre.length + 1 + m)
        (pre ++ rowEvent Seconds i1 r1 :: (mid ++ rowEvent Seconds i2 r2 :: post)) =
        pre ++ ([rowEvent Seconds i1 r1] ++ mid.take m) := by
      rw [List.take_append_eq_append_take, List.take_of_length_le (by omega)]
      congr 1
      have : pre.length + 1 + m - pre.length = m + 1 := by omega
      rw [this, List.take_succ_cons, List.take_append_eq_append_take]
      have h0 : m - mid.length = 0 := by omega
      rw [h0]
      simp
    rw [htake, applyEvents_append, applyEvents_append,
      applyEvents_store_other _ _ _ _ (fun e he => hmid e (List.mem_of_mem_take he)),
      ← hk1, applyEvents_rowEvent]
  · rw [hrun, hqueue]
    have htake : List.take (pre.length + 1 + mid.length + 1)
        (pre ++ rowEvent Seconds i1 r1 :: (mid ++ rowEvent Seconds i2 r2 :: post)) =
        (pre ++ rowEvent Seconds i1 r1 :: mid) ++ [rowEvent Seconds i2 r2] := by
      have e1 : pre ++ rowEvent Seconds i1 r1 :: (mid ++ rowEvent Seconds i2 r2 :: post) =
          ((pre ++ rowEvent Seconds i1 r1 :: mid) ++ [rowEvent Seconds i2 r2]) ++ post := by
        simp
      rw [e1, List.take_append_eq_append_take, List.take_of_length_le (by simp; omega)]
      have : pre.length + 1 + mid.length + 1 -
          ((pre ++ rowEvent Seconds i1 r1 :: mid) ++ [rowEvent Seconds i2 r2]).length = 0 := by
        simp; omega
      rw [this]
      simp
    rw [htake, applyEvents_append, ← hk2, applyEvents_rowEvent]


/-! ## Beacon cadence (C6) -/

theorem run_of_stopped (env : Env) (fuel : Nat) (s : Sim) (h : s.stopped = true) :
    run env fuel s = s := by
  cases fuel with
  | zero => rfl
  | succ n => simp [run, step, h]

theorem run_step (env : Env) (fuel : Nat) (s s' : Sim) (h : step env s = some s') :
    run env (fuel + 1) s = run env fuel s' := by
  simp [run, h]

theorem beaconScenario_inv (env : Env) (D w : Time) (wd : World) :
    BeaconInv env D w 0 (beaconScenario env D w wd) := by
  unfold BeaconInv beaconScenario
  refine ⟨rfl, rfl, rfl, rfl, ?_, 2, le_refl _, by simp [Schedule, Sim.start], Or.inl rfl, ?_⟩
  · intro r hr
    simp [Schedule, Sim.start] at hr
  · by_cases h : w < D
    · simp [Schedule, Sim.start, insertEvent, h]
    · simp [Schedule, Sim.start, insertEvent, h]

theorem beacon_step (env : Env) (D t : Time) (k : Nat) (s : Sim) (ht : t < D)
    (h : BeaconInv env D t k s) :
    ∃ s', step env s = some s' ∧ BeaconInv env D (t + 1 / env.hz) (k + 1) s' := by
  obtain ⟨now, nextUid, queue, stopped, world, camEvent, opened, txLog, sentPkts⟩ := s
  obtain ⟨h1, h2, h3, h4, h5, u, hu2, hu, hcam, hq⟩ := h
  simp only at h1 h2 h3 h4 h5 hu hcam hq
  subst h1 h2
  rw [if_pos ht] at hq
  subst hq
  have e : step env
      { now := now, nextUid := nextUid,
        queue := [⟨t, u, Action.sendCam env.me⟩, ⟨D, 0, Action.stopApplication env.me⟩,
          ⟨D, 1, Action.stop⟩],
        stopped := false, world := world, camEvent := camEvent, opened := true,
        txLog := txLog, sentPkts := sentPkts } =
      some (SendCam env
        { now := t, nextUid := nextUid,
          queue := [⟨D, 0, Action.stopApplication env.me⟩, ⟨D, 1, Action.stop⟩],
          stopped := false, world := world, camEvent := camEvent, opened := true,
          txLog := txLog, sentPkts := sentPkts }) := by
    simp [step, handle]
  refine ⟨_, e, ?_⟩
  unfold BeaconInv
  simp only [SendCam, doBuildAndSend, Schedule, if_true, List.length_append,
    List.length_singleton, h3, h4, true_and]
  refine ⟨?_, nextUid, by omega, by omega, Or.inr rfl, ?_⟩
  · intro r hr
    rcases List.mem_append.mp hr with hr | hr
    · exact h5 r hr
    · rw [List.mem_singleton] at hr
      subst hr
      rw [buildAndSend_txRec]
      exact ⟨rfl, rfl⟩
  · by_cases h' : t + 1 / env.hz < D
    · have h'' := h'
      rw [one_div] at h''
      simp [insertEvent, h'']
    · have h'' := h'
      rw [one_div] at h''
      simp [insertEvent, h'']

theorem beacon_end (env : Env) (D t : Time) (k : Nat) (s : Sim) (ht : ¬ t < D)
    (h : BeaconInv env D t k s) :
    ∃ s1 s2, step env s = some s1 ∧ step env s1 = some s2 ∧ s2.stopped = true ∧
      s2.txLog = s.txLog ∧ s2.sentPkts = s.sentPkts := by
  obtain ⟨now, nextUid, queue, stopped, world, camEvent, opened, txLog, sentPkts⟩ := s
  obtain ⟨h1, h2, h3, h4, h5, u, hu2, hu, hcam, hq⟩ := h
  simp only at h1 h2 h3 h4 hu hcam hq
  subst h1 h2
  rw [if_neg ht] at hq
  subst hq
  have h0 : ¬ (0 = u) := by omega
  have h1 : ¬ (1 = u) := by omega
  rcases hcam with hc | hc
  · subst hc
    refine ⟨{ now := D, nextUid := nextUid,
              queue := [⟨D, 1, Action.stop⟩, ⟨t, u, Action.sendCam env.me⟩],
              stopped := false, world := world, camEvent := none, opened := false,
              txLog := txLog, sentPkts := sentPkts },
            { now := D, nextUid := nextUid,
              queue := [⟨t, u, Action.sendCam env.me⟩],
              stopped := true, world := world, camEvent := none, opened := false,
              txLog := txLog, sentPkts := sentPkts }, ?_, ?_, rfl, rfl, rfl⟩
    · simp [step, handle, StopApplication]
    · simp [step, handle]
  · subst hc
    refine ⟨{ now := D, nextUid := nextUid,
              queue := [⟨D, 1, Action.stop⟩],
              stopped := false, world := world, camEvent := some u, opened := false,
              txLog := txLog, sentPkts := sentPkts },
            { now := D, nextUid := nextUid,
              queue := [],
              stopped := true, world := world, camEvent := some u, opened := false,
              txLog := txLog, sentPkts := sentPkts }, ?_, ?_, rfl, rfl, rfl⟩
    · simp [step, handle, StopApplication, isRunning, Cancel, h0, h1]
    · simp [step, handle]

/-- The run of the beacon scenario from a state of the cycle: it ends, stopped, after
one beacon for every due time before `D`. -/
theorem beacon_run (env : Env) (D : Time) (hz : 0 < env.hz) (n : Nat) :
    ∀ (t : Time) (k : Nat) (s : Sim), BeaconInv env D t k s → ⌈(D - t) * env.hz⌉₊ = n →
      ∀ fuel, n + 2 ≤ fuel →
        (run env fuel s).stopped = true ∧ (run env fuel s).txLog.length = k + n ∧
          (run env fuel s).sentPkts.length = k + n ∧
          ∀ r ∈ (run env fuel s).txLog, r.msgType = 1 ∧ r.targetLaneIdx = -1 := by
  induction n with
  | zero =>
    intro t k s hinv hceil fuel hfuel
    have hle : (D - t) * env.hz ≤ 0 := Nat.ceil_eq_zero.mp hceil
    have ht : ¬ t < D := by
      intro hlt
      have : 0 < (D - t) * env.hz := mul_pos (sub_pos.mpr hlt) hz
      exact absurd hle (not_le.mpr this)
    obtain ⟨s1, s2, e1, e2, hs, hl, hp⟩ := beacon_end env D t k s ht hinv
    obtain ⟨f, rfl⟩ : ∃ f, fuel = f + 1 + 1 := ⟨fuel - 2, by omega⟩
    rw [run_step env _ s s1 e1, run_step env _ s1 s2 e2, run_of_stopped env f s2 hs, hl, hp]
    exact ⟨hs, by simpa using hinv.2.2.1, by simpa using hinv.2.2.2.1, hinv.2.2.2.2.1⟩
  | succ n ih =>
    intro t k s hinv hceil fuel hfuel
    have hpos : 0 < (D - t) * env.hz := by
      apply Nat.ceil_pos.mp
      omega
    have ht : t < D := by
      by_contra hcon
      have : (D - t) * env.hz ≤ 0 :=
        mul_nonpos_of_nonpos_of_nonneg (sub_nonpos.mpr (not_lt.mp hcon)) (le_of_lt hz)
      exact absurd hpos (not_lt.mpr this)
    obtain ⟨s', e1, hinv'⟩ := beacon_step env D t k s ht hinv
    have hx : (D - (t + 1 / env.hz)) * env.hz = (D - t) * env.hz - 1 := by
      field_simp
      ring
    have hceil' : ⌈(D - (t + 1 / env.hz)) * env.hz⌉₊ = n := by
      rw [hx]
      by_cases h0 : 0 ≤ (D - t) * env.hz - 1
      · have := Nat.ceil_add_one h0
        rw [sub_add_cancel, hceil] at this
        omega
      · have h1 : (D - t) * env.hz ≤ ((1 : Nat) : ℚ) := by
          push_neg at h0
          simpa using (le_of_lt (sub_neg.mp h0))
        have h2 : ⌈(D - t) * env.hz⌉₊ ≤ 1 := Nat.ceil_le.mpr h1
        have h3 : ⌈(D - t) * env.hz - 1⌉₊ = 0 :=
          Nat.ceil_eq_zero.mpr (le_of_lt (not_le.mp h0))
        omega
    obtain ⟨f, rfl⟩ : ∃ f, fuel = f + 1 := ⟨fuel - 1, by omega⟩
    rw [run_step env f s s' e1]
    have := ih (t + 1 / env.hz) (k + 1) s' hinv' hceil' f (by omega)
    refine ⟨this.1, ?_, ?_, this.2.2.2⟩
    · rw [this.2.1]; omega
    · rw [this.2.2.1]; omega

theorem ceil_eq_floor_add_one (x : ℚ) (h0 : 0 ≤ x) (hx : ∀ n : ℕ, x ≠ n) :
    ⌈x⌉₊ = ⌊x⌋₊ + 1 := by
  apply le_antisymm (Nat.ceil_le_floor_add_one x)
  have h1 : (⌊x⌋₊ : ℚ) ≤ x := Nat.floor_le h0
  have h2 : (⌊x⌋₊ : ℚ) < x := lt_of_le_of_ne h1 (fun e => hx _ e.symm)
  exact Nat.succ_le_of_lt (Nat.lt_ceil.mpr h2)

/-- C6, as the code has it: for every run duration `D`, rate `r > 0` and time `w` of the
first `SendCam`, the run ends and the agent has then sent exactly `⌈(D - w) * r⌉`
messages, all of them beacons: one for every `k ≥ 0` with `w + k / r < D`. When `w ≤ D`
and `(D - w) * r` is not a whole number this is `⌊(D - w) * r⌋ + 1`; a `SendCam` due at
`D` itself is not dispatched, the stop events submitted before the run come first. -/
theorem C6_beacon_count (env : Env) (D w : Time) (wd : World) (hz : 0 < env.hz) :
    ∀ fuel, ⌈(D - w) * env.hz⌉₊ + 2 ≤ fuel →
      finished env (run env fuel (beaconScenario env D w wd)) = true ∧
      (run env fuel (beaconScenario env D w wd)).sentPkts.length = ⌈(D - w) * env.hz⌉₊ ∧
      (run env fuel (beaconScenario env D w wd)).txLog.length = ⌈(D - w) * env.hz⌉₊ ∧
      (∀ r ∈ (run env fuel (beaconScenario env D w wd)).txLog,
        r.msgType = 1 ∧ r.targetLaneIdx = -1) ∧
      (w ≤ D → (∀ n : ℕ, (D - w) * env.hz ≠ n) →
        (run env fuel (beaconScenario env D w wd)).sentPkts.length =
          ⌊(D - w) * env.hz⌋₊ + 1) := by
  intro fuel hfuel
  obtain ⟨h1, h2, h3, h4⟩ := beacon_run env D hz _ w 0 _ (beaconScenario_inv env D w wd) rfl
    fuel hfuel
  refine ⟨by simp [finished, step, h1], by simpa using h3, by simpa using h2, h4, ?_⟩
  intro hw hn
  rw [h3, Nat.zero_add]
  exact ceil_eq_floor_add_one _ (mul_nonneg (sub_nonneg.mpr hw) (le_of_lt hz)) hn

theorem C6_beacon_count_witness :
    (0 : Time) < sampleEnv.hz ∧
    ∀ fuel, ⌈((120 : Time) - 3 / 20) * sampleEnv.hz⌉₊ + 2 ≤ fuel →
      finished sampleEnv (run sampleEnv fuel (beaconScenario sampleEnv 120 (3 / 20) sampleWorld))
        = true ∧
      (run sampleEnv fuel (beaconScenario sampleEnv 120 (3 / 20) sampleWorld)).sentPkts.length =
        ⌈((120 : Time) - 3 / 20) * sampleEnv.hz⌉₊ ∧
      (run sampleEnv fuel (beaconScenario sampleEnv 120 (3 / 20) sampleWorld)).txLog.length =
        ⌈((120 : Time) - 3 / 20) * sampleEnv.hz⌉₊ ∧
      (∀ r ∈ (run sampleEnv fuel (beaconScenario sampleEnv 120 (3 / 20) sampleWorld)).txLog,
        r.msgType = 1 ∧ r.targetLaneIdx = -1) ∧
      ((3 / 20 : Time) ≤ 120 → (∀ n : ℕ, ((120 : Time) - 3 / 20) * sampleEnv.hz ≠ n) →
        (run sampleEnv fuel (beaconScenario sampleEnv 120 (3 / 20) sampleWorld)).sentPkts.length =
          ⌊((120 : Time) - 3 / 20) * sampleEnv.hz⌋₊ + 1) :=
  ⟨by norm_num [sampleEnv],
    C6_beacon_count sampleEnv 120 (3 / 20) sampleWorld (by norm_num [sampleEnv])⟩

/-- C6 fails as stated: in the example scenario (run of 3 s, 10 Hz, first beacon at
0.1 s) the agent sends 29 beacons, at 0.1, 0.2, ..., 2.9, and the formula gives 30. -/
theorem C6_example_scenario_sends_29 :
    (run sampleEnv 31 (beaconScenario sampleEnv 3 (1 / 10) sampleWorld)).sentPkts.length = 29 ∧
      (run sampleEnv 31 (beaconScenario sampleEnv 3 (1 / 10) sampleWorld)).txLog.length = 29 ∧
      (1 / 10 : Time) ≤ 3 ∧ ⌊((3 : Time) - 1 / 10) * sampleEnv.hz⌋₊ + 1 = 30 := by
  have hc : ⌈((3 : Time) - 1 / 10) * sampleEnv.hz⌉₊ = 29 := by
    norm_num [sampleEnv]
  obtain ⟨-, h2, h3, -⟩ := beacon_run sampleEnv 3 (by norm_num [sampleEnv]) 29 (1 / 10) 0 _
    (beaconScenario_inv sampleEnv 3 (1 / 10) sampleWorld) hc 31 (by norm_num)
  refine ⟨by simpa using h3, by simpa using h2, by norm_num, ?_⟩
  norm_num [sampleEnv]


theorem C7_playback_order_witness :
    (sampleTrace[2]? = some sampleEarly ∧ sampleTrace[0]? = some sampleLate ∧
      sampleEarly.nodeId = 0 ∧ sampleLate.nodeId = 0 ∧
      doubleValue sampleEarly.t < doubleValue sampleLate.t) ∧
    ∃ p1 p2, p1 < p2 ∧ p2 < sampleTrace.length ∧
      (playbackStart doubleValue sampleTrace sampleWorld).queue[p1]? =
        some (rowEvent doubleValue 2 sampleEarly) ∧
      (playbackStart doubleValue sampleTrace sampleWorld).queue[p2]? =
        some (rowEvent doubleValue 0 sampleLate) ∧
      (∀ j, p1 < j → j ≤ p2 →
        storeAt (run sampleEnv j (playbackStart doubleValue sampleTrace sampleWorld)).world 0 =
          (some sampleEarly.v, some sampleEarly.psi, some sampleEarly.laneIdx)) ∧
      storeAt (run sampleEnv (p2 + 1) (playbackStart doubleValue sampleTrace sampleWorld)).world 0 =
        (some sampleLate.v, some sampleLate.psi, some sampleLate.laneIdx) :=
  have hlt : doubleValue sampleEarly.t < doubleValue sampleLate.t := by
    norm_num [doubleValue, sampleEarly, sampleLate]
  ⟨⟨rfl, rfl, rfl, rfl, hlt⟩,
    C7_playback_order sampleEnv doubleValue sampleTrace sampleWorld 0 2 0 sampleEarly
      sampleLate rfl rfl rfl rfl hlt (by
        intro j r hj hk
        rcases j with _ | _ | _ | j
        · simp [sampleTrace] at hj
          subst hj
          exact fun h => Event.before_irrefl _ h.2
        · simp [sampleTrace] at hj
          subst hj
          simp [sampleOther] at hk
        · simp [sampleTrace] at hj
          subst hj
          exact fun h => Event.before_irrefl _ h.1
        · simp [sampleTrace] at hj)⟩

end SafeLane
